import Mathlib

/-!
Shallow embedding of the Naija Whot authoritative game engine:
`src/supabase/functions/_shared/whot-rules.ts` (pure rules) and the
route handlers of `src/supabase/functions/whot-server/index.ts`
(play-card, draw, get-state, update-rules, auto-play, start).
I/O (store, broadcast, analytics) is elided; the state transformation and
the response classification of each handler are embedded exactly.
-/

namespace Whot

inductive Shape
  | circle | triangle | cross | square | star
deriving DecidableEq, Repr, Inhabited

/-- A card: `{id, shape, number}` from `game-types.ts`. -/
structure Card where
  id : String
  shape : Shape
  number : Nat
deriving DecidableEq, Repr, Inhabited

/-- The values `effectActive` may hold (`game-types.ts`). -/
inductive ActiveEffect
  | pick_two | pick_three | suspension | general_market
deriving DecidableEq, Repr

/-- The effect kinds returned by `getCardEffect` (`whot-rules.ts`). -/
inductive CardEffect
  | hold_on | pick_two | pick_three | suspension | general_market
deriving DecidableEq, Repr

structure Player where
  id : String
  name : String
  cardCount : Nat
  isHost : Bool
  isReady : Bool
deriving DecidableEq, Repr, Inhabited

/-- `GameRules` from `game-types.ts`. -/
structure GameRules where
  pickTwo : Bool
  pickThree : Bool
  defendPick : Bool
  winWithHoldOn : Bool
deriving DecidableEq, Repr, Inhabited

/-- `DEFAULT_RULES` from `src/types/game.ts` / `_shared/game-types.ts`. -/
def defaultRules : GameRules :=
  { pickTwo := true, pickThree := false, defendPick := false, winWithHoldOn := false }

/-- A `Partial<GameRules>` request body: absent fields are `none`. -/
structure PartialRules where
  pickTwo : Option Bool := none
  pickThree : Option Bool := none
  defendPick : Option Bool := none
  winWithHoldOn : Option Bool := none
deriving DecidableEq, Repr, Inhabited

/-- JS object-spread merge `{...base, ...patch}` for a partial rules patch. -/
def mergeRules (base : GameRules) (patch : PartialRules) : GameRules :=
  { pickTwo := patch.pickTwo.getD base.pickTwo
    pickThree := patch.pickThree.getD base.pickThree
    defendPick := patch.defendPick.getD base.defendPick
    winWithHoldOn := patch.winWithHoldOn.getD base.winWithHoldOn }

/-- `Record<string, Card[]>`: the `playerHands` map, as an association list. -/
abbrev HandMap := List (String × List Card)

/-- `state.playerHands[playerId] || []`. -/
def getHand (m : HandMap) (pid : String) : List Card :=
  ((m.find? (fun e => e.1 == pid)).map (·.2)).getD []

/-- `state.playerHands[playerId] = h` (overwrite or insert). -/
def setHand : HandMap → String → List Card → HandMap
  | [], pid, h => [(pid, h)]
  | e :: rest, pid, h =>
    if e.1 == pid then (pid, h) :: rest else e :: setHand rest pid h

/-- The `GameState` aggregate from `game-types.ts`.  `sessionWins` is read
only through `sessionWins[p] || 0`, so it is modelled as a total function
defaulting to 0. -/
structure GameState where
  roomCode : String
  players : List Player
  currentCard : Option Card
  currentPlayerIndex : Nat
  direction : Nat
  selectedShape : Option Shape
  lastAction : String
  gameStarted : Bool
  winner : Option String
  deckCount : Nat
  pickTwoChain : Nat
  pickThreeChain : Nat
  effectActive : Option ActiveEffect
  generalMarketInitiator : Option String
  marketDue : Option (List String)
  marketPile : List Card
  discardPile : List Card
  playerHands : HandMap
  sessionWins : String → Nat
  pickEffectInitiator : Option String
  rules : GameRules
  rulesLocked : Bool
  totalTurns : Nat
  turnStartTime : Nat
deriving Inhabited

/-- JS `Array.prototype.findIndex`, with `-1` modelled as `none`. -/
def jsFindIndex (p : α → Bool) : List α → Option Nat
  | [] => none
  | a :: as => if p a then some 0 else (jsFindIndex p as).map (· + 1)

/-- `state.players[i].name`, defaulting for an out-of-range index. -/
def nameAt (s : GameState) (i : Nat) : String :=
  ((s.players.get? i).map (·.name)).getD "Unknown"

def circleNumbers : List Nat := [1, 2, 3, 4, 5, 7, 8, 10, 11, 12, 13, 14]

def triangleNumbers : List Nat := [1, 2, 3, 4, 5, 7, 8, 10, 11, 12, 13, 14]

def crossNumbers : List Nat := [1, 2, 3, 5, 7, 10, 11, 13, 14]

def squareNumbers : List Nat := [1, 2, 3, 5, 7, 10, 11, 13, 14]

def starNumbers : List Nat := [1, 2, 3, 4, 5, 7, 8]

/-- Helper: build cards of one shape with sequential ids `card-N`. -/
def mkCards (shape : Shape) : Nat → List Nat → List Card
  | _, [] => []
  | firstId, n :: rest =>
    { id := "card-" ++ toString firstId, shape := shape, number := n }
      :: mkCards shape (firstId + 1) rest

/-- `createDeck()`: the fixed 54-card composition with sequential ids. -/
def createDeck : List Card :=
  mkCards .circle 1 circleNumbers ++
  mkCards .triangle 13 triangleNumbers ++
  mkCards .cross 25 crossNumbers ++
  mkCards .square 34 squareNumbers ++
  mkCards .star 43 starNumbers ++
  mkCards .circle 50 [20, 20, 20, 20, 20]

/-- `canPlayCard(card, currentCard, selectedShape)`. -/
def canPlayCard (card : Card) (currentCard : Option Card)
    (selectedShape : Option Shape) : Bool :=
  match currentCard with
  | none => true
  | some cur =>
    if card.number == 20 then true
    else
      match selectedShape with
      | some ss =>
        if cur.number == 20 then card.shape == ss || card.number == 20
        else card.shape == cur.shape || card.number == cur.number
      | none => card.shape == cur.shape || card.number == cur.number

/-- `getCardEffect(card).type`. -/
def getCardEffect (card : Card) : Option CardEffect :=
  if card.number == 1 then some .hold_on
  else if card.number == 2 then some .pick_two
  else if card.number == 5 then some .pick_three
  else if card.number == 8 then some .suspension
  else if card.number == 14 then some .general_market
  else none

/-- `getNextPlayerIndex(currentIndex, playerCount)`. -/
def getNextPlayerIndex (currentIndex playerCount : Nat) : Nat :=
  (currentIndex + 1) % playerCount

/-- The skip-forward loop of `dealCards`: while the candidate is a wildcard
and more cards remain, advance.  Returns the chosen card and the final
`deckIndex`.  The loop runs at most `deck.length` times (the index grows
strictly and the guard needs `idx < deck.length`), so a fuel of
`deck.length` makes the recursion structural without cutting any run
short. -/
def skipStartLoop (deck : List Card) : Nat → Card → Nat → Card × Nat
  | 0, start, idx => (start, idx)
  | fuel + 1, start, idx =>
    if start.number = 20 ∧ idx < deck.length then
      skipStartLoop deck fuel (deck.getD idx default) (idx + 1)
    else (start, idx)

structure DealResult where
  hands : List (List Card)
  remainingDeck : List Card
  /-- `none` models the JS fault when `deck[deckIndex]` is out of range. -/
  startCard : Option Card

/-- `dealCards(deck, playerCount, cardsPerPlayer)`. -/
def dealCards (deck : List Card) (playerCount : Nat)
    (cardsPerPlayer : Nat := 6) : DealResult :=
  let hands := (List.range playerCount).map
    (fun i => (deck.drop (i * cardsPerPlayer)).take cardsPerPlayer)
  let deckIndex := playerCount * cardsPerPlayer
  match deck.get? deckIndex with
  | none =>
    { hands := hands, remainingDeck := deck.drop (deckIndex + 1), startCard := none }
  | some c0 =>
    let r := skipStartLoop deck deck.length c0 (deckIndex + 1)
    { hands := hands, remainingDeck := deck.drop r.2, startCard := some r.1 }

/-- `canDefendAgainstPick(card, state)`. -/
def canDefendAgainstPick (card : Card) (s : GameState) : Bool :=
  if !s.rules.defendPick then false
  else if s.effectActive == some .pick_two && card.number == 2 then true
  else if s.effectActive == some .pick_three && card.number == 5
          && s.rules.pickThree then true
  else false

/-- `getPlayableCards(hand, currentCard, selectedShape, state)`. -/
def getPlayableCards (hand : List Card) (currentCard : Option Card)
    (selectedShape : Option Shape) (s : GameState) : List Card :=
  if s.effectActive == some .pick_two || s.effectActive == some .pick_three then
    if s.rules.defendPick then hand.filter (fun c => canDefendAgainstPick c s)
    else []
  else hand.filter (fun c => canPlayCard c currentCard selectedShape)

/-- `calculateScore(hand)`. -/
def calculateScore (hand : List Card) : Nat :=
  hand.foldl
    (fun total card =>
      let v := card.number
      let v := if card.shape == Shape.star then v * 2 else v
      let v := if card.number == 20 then 20 else v
      total + v)
    0

/-- `applyCardEffect(state, card, playerId)` from `_shared/whot-rules.ts`. -/
def applyCardEffect (s : GameState) (card : Card) (playerId : String) : GameState :=
  let playerIdx := (jsFindIndex (fun p => p.id == playerId) s.players).getD 0
  let pname := nameAt s playerIdx
  match getCardEffect card with
  | some .hold_on =>
    { s with lastAction := pname ++ " played HOLD ON!" }
  | some .pick_two =>
    if s.rules.pickTwo then
      { s with pickTwoChain := s.pickTwoChain + 1
               effectActive := some .pick_two
               lastAction := pname ++ " played PICK TWO!"
               currentPlayerIndex :=
                 getNextPlayerIndex s.currentPlayerIndex s.players.length }
    else
      { s with lastAction := pname ++ " played a 2"
               currentPlayerIndex :=
                 getNextPlayerIndex s.currentPlayerIndex s.players.length }
  | some .pick_three =>
    if s.rules.pickThree then
      { s with pickThreeChain := s.pickThreeChain + 1
               effectActive := some .pick_three
               lastAction := pname ++ " played PICK THREE!"
               currentPlayerIndex :=
                 getNextPlayerIndex s.currentPlayerIndex s.players.length }
    else
      { s with lastAction := pname ++ " played a 5"
               currentPlayerIndex :=
                 getNextPlayerIndex s.currentPlayerIndex s.players.length }
  | some .suspension =>
    -- skipCount = 1, then one more advance to the player who actually plays
    let c1 := getNextPlayerIndex s.currentPlayerIndex s.players.length
    let c2 := getNextPlayerIndex c1 s.players.length
    { s with lastAction := pname ++ " played SUSPENSION!", currentPlayerIndex := c2 }
  | some .general_market =>
    let due := (s.players.filter (fun p => !(p.id == playerId))).map (·.id)
    -- pass the turn to the first queued victim; the unguarded `findIndex`
    -- always succeeds, since `nextPlayerId` is drawn from `s.players` itself
    let newIndex :=
      match due with
      | [] => s.currentPlayerIndex
      | nextPlayerId :: _ =>
        match jsFindIndex (fun p => p.id == nextPlayerId) s.players with
        | some i => i
        | none => s.currentPlayerIndex
    { s with lastAction := pname ++ " played GENERAL MARKET!"
             effectActive := some .general_market
             generalMarketInitiator := some playerId
             marketDue := some due
             currentPlayerIndex := newIndex }
  | none =>
    { s with currentPlayerIndex :=
               getNextPlayerIndex s.currentPlayerIndex s.players.length
             pickTwoChain := if s.effectActive = none then 0 else s.pickTwoChain
             pickThreeChain := if s.effectActive = none then 0 else s.pickThreeChain }

/-- `applyStartCardEffect(state)`. -/
def applyStartCardEffect (s : GameState) : GameState :=
  match s.currentCard with
  | none => s
  | some currentCard =>
    if currentCard.number = 2 ∧ s.rules.pickTwo then
      { s with effectActive := some .pick_two, pickTwoChain := 1
               lastAction := "Game Started with Pick Two!" }
    else if currentCard.number = 5 ∧ s.rules.pickThree then
      { s with effectActive := some .pick_three, pickThreeChain := 1
               lastAction := "Game Started with Pick Three!" }
    else if currentCard.number = 14 then
      { s with effectActive := some .general_market
               lastAction := "Game Started with General Market!"
               generalMarketInitiator := some "dealer"
               marketDue := some (s.players.map (·.id)) }
    else if currentCard.number = 8 then
      { s with lastAction := "Game Started with Suspension!"
               currentPlayerIndex :=
                 getNextPlayerIndex s.currentPlayerIndex s.players.length }
    else s

/-- Build the `players` array of `createInitialGameState` (zips the request
players with the dealt hands; the first player is host). -/
def buildPlayers : List (String × String) → List (List Card) → Bool → List Player
  | [], _, _ => []
  | (pid, pname) :: rest, hands, isFirst =>
    { id := pid, name := pname, cardCount := (hands.headD []).length
      isHost := isFirst, isReady := false }
      :: buildPlayers rest hands.tail false

/-- Build the `playerHands` record of `createInitialGameState`. -/
def buildHandMap : List (String × String) → List (List Card) → HandMap
  | [], _ => []
  | (pid, _) :: rest, hands => (pid, hands.headD []) :: buildHandMap rest hands.tail

/-- `createInitialGameState(roomCode, players, rules)`.  The internal
`shuffleDeck` (uniform RNG Fisher-Yates) is modelled by the `shuffle`
parameter applied to the fixed deck; `Date.now()` by `now`. -/
def createInitialGameState (shuffle : List Card → List Card)
    (roomCode : String) (reqPlayers : List (String × String))
    (rules : Option PartialRules) (now : Nat) : GameState :=
  let shuffledDeck := shuffle createDeck
  let d := dealCards shuffledDeck reqPlayers.length 6
  let gameRules := mergeRules defaultRules (rules.getD {})
  let initialState : GameState :=
    { roomCode := roomCode
      players := buildPlayers reqPlayers d.hands true
      currentCard := d.startCard
      currentPlayerIndex := 0
      direction := 1
      selectedShape := none
      lastAction := "Game Started"
      gameStarted := true
      winner := none
      deckCount := d.remainingDeck.length
      pickTwoChain := 0
      pickThreeChain := 0
      effectActive := none
      generalMarketInitiator := none
      marketDue := none
      marketPile := d.remainingDeck
      discardPile := d.startCard.elim [] (fun c => [c])
      playerHands := buildHandMap reqPlayers d.hands
      sessionWins := fun _ => 0
      pickEffectInitiator := none
      rules := gameRules
      rulesLocked := false
      totalTurns := 0
      turnStartTime := now }
  applyStartCardEffect initialState

/-- `state.players[playerIndex].cardCount = n` (index assignment; out of
range is a no-op, which is unreachable from the validated handlers). -/
def setCardCount : List Player → Nat → Nat → List Player
  | [], _, _ => []
  | p :: ps, 0, n => { p with cardCount := n } :: ps
  | p :: ps, i + 1, n => p :: setCardCount ps i n

/-- The redaction spread `{...state, playerHands: {}, marketPile: []}` used
for every outbound `gameState` and state response. -/
def publicState (s : GameState) : GameState :=
  { s with playerHands := [], marketPile := [] }

/-- The `get-state` handler: `none` is an unknown room (404). -/
def getStateHandler (stateO : Option GameState) : Except String GameState :=
  match stateO with
  | none => .error "Game not found"
  | some s => .ok (publicState s)

/-- The `update-rules` handler (state transformation part). -/
def updateRules (s : GameState) (patch : PartialRules) : Except String GameState :=
  if s.rulesLocked then .error "Rules are locked after first card is played"
  else .ok { s with rules := mergeRules s.rules patch }

/-- The pick_two/pick_three restriction block of the `play-card` handler
(lines 362-392).  `none` is the "Must draw cards" rejection. -/
def passRestriction (s : GameState) (card : Card) (playerId : String) :
    Option GameState :=
  if s.effectActive = some .pick_two ∨ s.effectActive = some .pick_three then
    if s.pickEffectInitiator = some playerId then
      -- initiator: clear the effect, play proceeds normally
      some { s with effectActive := none, pickTwoChain := 0, pickThreeChain := 0
                    pickEffectInitiator := none }
    else if s.pickEffectInitiator = none then
      -- no initiator tracking: clear the effect to prevent a stuck state
      some { s with effectActive := none, pickTwoChain := 0, pickThreeChain := 0 }
    else if s.rules.defendPick && canDefendAgainstPick card s then
      some s
    else none
  else some s

/-- The general-market queue initialization of the `play-card` handler
(lines 424-441). -/
def gmInit (u : GameState) (playerId : String) (playerIndex : Nat) : GameState :=
  if u.effectActive = some .general_market then
    let oppIds := (u.players.filter (fun p => !(p.id == playerId))).map (·.id)
    let u1 := { u with marketDue := some oppIds
                       generalMarketInitiator := some playerId }
    match oppIds with
    | [] => { u1 with effectActive := none }
    | firstVictimId :: _ =>
      let u2 :=
        match jsFindIndex (fun p => p.id == firstVictimId) u1.players with
        | some i => { u1 with currentPlayerIndex := i }
        | none => u1
      { u2 with lastAction := nameAt u2 playerIndex ++ " played General Market!" }
  else u

/-- The final-scores string of the win branch. -/
def scoresString (u : GameState) : String :=
  String.intercalate ", "
    (u.players.map (fun p =>
      p.name ++ ": " ++ toString (calculateScore (getHand u.playerHands p.id))))

/-- The card-count / winner check of the `play-card` handler (lines 443-487).
`rules` is the binding taken before the restriction block. -/
def winCheck (u : GameState) (playerIndex : Nat) (card : Card)
    (playerId : String) (rules : GameRules) : GameState :=
  let remainingCards := (getHand u.playerHands playerId).length
  let pname := nameAt u playerIndex
  if remainingCards = 0 then
    if card.number = 1 ∧ rules.winWithHoldOn = false then
      { u with lastAction := pname ++ " played HOLD ON but can't win with it!" }
    else
      { u with winner := some playerId
               sessionWins := fun q =>
                 if q == playerId then u.sessionWins playerId + 1
                 else u.sessionWins q
               lastAction := "Final Scores: " ++ scoresString u }
  else if remainingCards = 1 then
    { u with lastAction := pname ++ " is on last card!" }
  else if remainingCards = 2 then
    { u with lastAction := "Warning, " ++ pname ++ " has two cards left!" }
  else u

/-- The mutation part of the `play-card` handler after all checks passed
(lines 401-487). -/
def finishPlay (s : GameState) (playerIndex : Nat) (card : Card)
    (selectedShape : Option Shape) (playerId : String) (now : Nat) : GameState :=
  let hand := getHand s.playerHands playerId
  let hands1 := setHand s.playerHands playerId
    (hand.filter (fun c => !(c.id == card.id)))
  let s1 := { s with
    playerHands := hands1
    players := setCardCount s.players playerIndex (getHand hands1 playerId).length
    currentCard := some card
    discardPile := s.discardPile ++ [card]
    selectedShape := selectedShape
    rulesLocked := true
    totalTurns := s.totalTurns + 1 }
  let rules := s1.rules
  let u := applyCardEffect s1 card playerId
  let u := { u with turnStartTime := now }
  let u := gmInit u playerId playerIndex
  winCheck u playerIndex card playerId rules

/-- The `play-card` handler (lines 331-534): validation then mutation. -/
def playCard (s : GameState) (card : Card) (selectedShape : Option Shape)
    (playerId : String) (now : Nat) : Except String GameState :=
  if s.winner ≠ none then .error "Game is over"
  else
    match jsFindIndex (fun p => p.id == playerId) s.players with
    | none => .error "Player not found"
    | some playerIndex =>
      if playerIndex ≠ s.currentPlayerIndex then .error "Not your turn"
      else if !((getHand s.playerHands playerId).any (fun c => c.id == card.id))
      then .error "Card not in hand"
      else
        match passRestriction s card playerId with
        | none => .error "Must draw cards (Market Penalties active)"
        | some s2 =>
          if !(canPlayCard card s2.currentCard s2.selectedShape) then
            .error "Invalid move: Card does not match shape or number"
          else .ok (finishPlay s2 playerIndex card selectedShape playerId now)

/-- The draw loop of the `draw` handler (lines 597-615): refill from the
discard (minus its top card) when the market empties; stop short when
truly empty. -/
def drawLoop (shuffle : List Card → List Card) :
    Nat → GameState → List Card → GameState × List Card
  | 0, s, acc => (s, acc)
  | Nat.succ n, s, acc =>
    if s.marketPile.isEmpty then
      if s.discardPile.length > 1 then
        let s1 : GameState := { s with
          marketPile := shuffle s.discardPile.dropLast
          discardPile := s.discardPile.getLast?.elim [] (fun t => [t])
          lastAction := s.lastAction ++ " (Market Refilled)" }
        match s1.marketPile with
        | [] => drawLoop shuffle n s1 acc
        | c :: rest =>
          drawLoop shuffle n { s1 with marketPile := rest } (acc ++ [c])
      else (s, acc)
    else
      match s.marketPile with
      | [] => drawLoop shuffle n s acc
      | c :: rest =>
        drawLoop shuffle n { s with marketPile := rest } (acc ++ [c])

/-- The post-draw effect resolution and bookkeeping of the `draw` handler
(lines 617-660). -/
def drawResolve (s : GameState) (playerId : String) (playerIndex : Nat)
    (drawn : List Card) (now : Nat) : GameState :=
  let s1 := { s with
    playerHands := setHand s.playerHands playerId
      (getHand s.playerHands playerId ++ drawn) }
  let s1 := { s1 with
    players := setCardCount s1.players playerIndex
      (getHand s1.playerHands playerId).length }
  let s2 : GameState :=
    if s1.effectActive = some .general_market then
      let due := (s1.marketDue.getD []).filter (fun pid => !(pid == playerId))
      let s1 := { s1 with marketDue := some due }
      match due with
      | [] =>
        let s1 :=
          match s1.generalMarketInitiator with
          | none => s1
          | some gid =>
            match jsFindIndex (fun p : Player => p.id == gid) s1.players with
            | some initiatorIndex =>
              { s1 with currentPlayerIndex := initiatorIndex
                        lastAction := "Market Cleaned! Back to "
                          ++ nameAt s1 initiatorIndex }
            | none => s1
        { s1 with effectActive := none, generalMarketInitiator := none }
      | nextId :: _ =>
        let s1 :=
          match jsFindIndex (fun p : Player => p.id == nextId) s1.players with
          | some nextIndex => { s1 with currentPlayerIndex := nextIndex }
          | none => s1
        { s1 with lastAction := nameAt s1 playerIndex ++ " drew. Waiting for "
                    ++ nameAt s1 s1.currentPlayerIndex }
    else
      { s1 with effectActive := none
                pickTwoChain := 0
                pickThreeChain := 0
                pickEffectInitiator := none
                currentPlayerIndex :=
                  (s1.currentPlayerIndex + s1.direction + s1.players.length)
                    % s1.players.length }
  let s3 : GameState := { s2 with deckCount := s2.marketPile.length }
  let s4 : GameState :=
    if s3.effectActive = none then
      { s3 with lastAction := nameAt s3 playerIndex ++ " picked "
                  ++ toString drawn.length ++ " cards" }
    else s3
  { s4 with turnStartTime := now }

/-- The `draw` handler (lines 567-694): returns the saved state and the
drawn cards of the response. -/
def drawHandler (shuffle : List Card → List Card) (s : GameState)
    (playerId : String) (now : Nat) : Except String (GameState × List Card) :=
  match jsFindIndex (fun p => p.id == playerId) s.players with
  | none => .error "Not your turn"
  | some playerIndex =>
    if playerIndex ≠ s.currentPlayerIndex then .error "Not your turn"
    else
      let drawCount :=
        if s.effectActive = some .pick_two then s.pickTwoChain * 2
        else if s.effectActive = some .pick_three then s.pickThreeChain * 3
        else 1
      let r := drawLoop shuffle drawCount s []
      .ok (drawResolve r.1 playerId playerIndex r.2 now, r.2)

/-- The response of the `auto-play` handler, with the resulting saved state
attached to the acting outcomes. -/
inductive AutoPlayOutcome
  | err (msg : String)
  | skipped (reason : String)
  | drew (count : Nat) (s : GameState)
  | played (card : Card) (s : GameState)

/-- `true` for every `success: true` response of the handler. -/
def AutoPlayOutcome.isSuccess : AutoPlayOutcome → Bool
  | .err _ => false
  | _ => true

/-- The penalty draw loop of auto-play (lines 778-790): same as the draw
handler's loop but without the "(Market Refilled)" log line. -/
def autoDrawLoop (shuffle : List Card → List Card) :
    Nat → GameState → List Card → GameState × List Card
  | 0, s, acc => (s, acc)
  | Nat.succ n, s, acc =>
    if s.marketPile.isEmpty then
      if s.discardPile.length > 1 then
        let s1 : GameState := { s with
          marketPile := shuffle s.discardPile.dropLast
          discardPile := s.discardPile.getLast?.elim [] (fun t => [t]) }
        match s1.marketPile with
        | [] => autoDrawLoop shuffle n s1 acc
        | c :: rest =>
          autoDrawLoop shuffle n { s1 with marketPile := rest } (acc ++ [c])
      else (s, acc)
    else
      match s.marketPile with
      | [] => autoDrawLoop shuffle n s acc
      | c :: rest =>
        autoDrawLoop shuffle n { s with marketPile := rest } (acc ++ [c])

/-- The forced-draw branch of auto-play (lines 772-831). -/
def autoPlayPenaltyDraw (shuffle : List Card → List Card) (s : GameState)
    (playerId : String) (playerIndex : Nat) (now : Nat) : AutoPlayOutcome :=
  let hand := getHand s.playerHands playerId
  let pname := nameAt s playerIndex
  let drawCount :=
    if s.effectActive = some .pick_two then s.pickTwoChain * 2
    else if s.effectActive = some .pick_three then s.pickThreeChain * 3
    else 1
  let r := autoDrawLoop shuffle drawCount s []
  let s1 := r.1
  let drawn := r.2
  let s1 := { s1 with playerHands := setHand s1.playerHands playerId (hand ++ drawn) }
  let s1 := { s1 with
    players := setCardCount s1.players playerIndex
      (getHand s1.playerHands playerId).length }
  let s2 : GameState :=
    if s1.effectActive = some .general_market then
      let due := (s1.marketDue.getD []).filter (fun pid => !(pid == playerId))
      let s1 := { s1 with marketDue := some due }
      match due with
      | [] =>
        let s1 :=
          match s1.generalMarketInitiator with
          | none => s1
          | some gid =>
            match jsFindIndex (fun p : Player => p.id == gid) s1.players with
            | some initiatorIndex => { s1 with currentPlayerIndex := initiatorIndex }
            | none => s1
        { s1 with effectActive := none, generalMarketInitiator := none }
      | nextId :: _ =>
        match jsFindIndex (fun p : Player => p.id == nextId) s1.players with
        | some nextIndex => { s1 with currentPlayerIndex := nextIndex }
        | none => s1
    else
      { s1 with effectActive := none
                pickTwoChain := 0
                pickThreeChain := 0
                currentPlayerIndex :=
                  (s1.currentPlayerIndex + 1) % s1.players.length }
  let s3 : GameState := { s2 with
    deckCount := s2.marketPile.length
    lastAction := "[timeout] " ++ pname ++ " timed out - auto-drew "
      ++ toString drawn.length ++ " cards"
    turnStartTime := now }
  .drew drawn.length s3

/-- The play branch of auto-play (lines 836-892): plays the first playable
card; a Whot gets the (randomly) chosen shape `chooseShape`. -/
def autoPlayCard (s : GameState) (playerId : String) (playerIndex : Nat)
    (cardToPlay : Card) (chooseShape : Shape) (now : Nat) : AutoPlayOutcome :=
  let hand := getHand s.playerHands playerId
  let pname := nameAt s playerIndex
  let s1 := { s with
    playerHands := setHand s.playerHands playerId
      (hand.filter (fun c => !(c.id == cardToPlay.id))) }
  let s1 := { s1 with
    players := setCardCount s1.players playerIndex
      (getHand s1.playerHands playerId).length
    currentCard := some cardToPlay
    discardPile := s1.discardPile ++ [cardToPlay]
    selectedShape := none }
  let s1 : GameState :=
    if cardToPlay.number = 20 then { s1 with selectedShape := some chooseShape }
    else s1
  let u := applyCardEffect s1 cardToPlay playerId
  let u := { u with turnStartTime := now, rulesLocked := true
                    totalTurns := u.totalTurns + 1 }
  let u : GameState :=
    if (getHand u.playerHands playerId).length = 0 then
      if cardToPlay.number = 1 ∧ u.rules.winWithHoldOn = false then
        { u with lastAction := "[timeout] " ++ pname
            ++ " timed out - auto-played Hold On but can't win with it!" }
      else
        { u with winner := some playerId
                 sessionWins := fun q =>
                   if q == playerId then u.sessionWins playerId + 1
                   else u.sessionWins q
                 lastAction := "[timeout] " ++ pname
                   ++ " timed out but auto-played to WIN!" }
    else
      { u with lastAction := "[timeout] " ++ pname ++ " timed out - auto-played" }
  .played cardToPlay u

/-- The no-playable-card fallback branch of auto-play (lines 893-927):
a single refill-aware draw; the response always reports `count: 1`. -/
def autoPlayFallbackDraw (shuffle : List Card → List Card) (s : GameState)
    (playerId : String) (playerIndex : Nat) (now : Nat) : AutoPlayOutcome :=
  let hand := getHand s.playerHands playerId
  let pname := nameAt s playerIndex
  let s1 : GameState :=
    if s.marketPile.isEmpty then
      if s.discardPile.length > 1 then
        { s with marketPile := shuffle s.discardPile.dropLast
                 discardPile := s.discardPile.getLast?.elim [] (fun t => [t]) }
      else s
    else s
  let drawn : List Card := s1.marketPile.take 1
  let s2 : GameState := { s1 with marketPile := s1.marketPile.drop 1 }
  let s2 := { s2 with playerHands := setHand s2.playerHands playerId (hand ++ drawn) }
  let s2 := { s2 with
    players := setCardCount s2.players playerIndex
      (getHand s2.playerHands playerId).length
    currentPlayerIndex := (s2.currentPlayerIndex + 1) % s2.players.length }
  let s3 : GameState := { s2 with
    deckCount := s2.marketPile.length
    lastAction := "[timeout] " ++ pname ++ " timed out - auto-drew 1 card"
    turnStartTime := now }
  .drew 1 s3

/-- The `auto-play` handler (lines 751-932).  `stateO = none` is an unknown
room; `chooseShape` models the random shape pick for a Whot. -/
def autoPlay (shuffle : List Card → List Card) (chooseShape : Shape)
    (stateO : Option GameState) (playerId : String) (now : Nat) : AutoPlayOutcome :=
  match stateO with
  | none => .err "Game not found"
  | some s =>
    if s.winner ≠ none then .skipped "Game already ended"
    else
      match jsFindIndex (fun p => p.id == playerId) s.players with
      | none => .skipped "Turn already passed"
      | some playerIndex =>
        if playerIndex ≠ s.currentPlayerIndex then .skipped "Turn already passed"
        else if s.effectActive = some .pick_two ∨ s.effectActive = some .pick_three
                ∨ s.effectActive = some .general_market then
          autoPlayPenaltyDraw shuffle s playerId playerIndex now
        else
          let hand := getHand s.playerHands playerId
          match getPlayableCards hand s.currentCard s.selectedShape s with
          | cardToPlay :: _ =>
            autoPlayCard s playerId playerIndex cardToPlay chooseShape now
          | [] => autoPlayFallbackDraw shuffle s playerId playerIndex now

/-- `|marketPile| + |discardPile| + sum over players of |playerHands|`. -/
def totalCards (s : GameState) : Nat :=
  s.marketPile.length + s.discardPile.length +
    (s.players.map (fun p => (getHand s.playerHands p.id).length)).sum

/-- The identity permutation, used as a concrete outcome of `shuffleDeck`. -/
def idShuffle : List Card → List Card := fun d => d

/-- The transposition of positions `i` and `j`, used as a concrete outcome
of `shuffleDeck`. -/
def swapAt (i j : Nat) (d : List Card) : List Card :=
  match d.get? i, d.get? j with
  | some a, some b => (d.set i b).set j a
  | _, _ => d

/-- The circle-1 card of the deck. -/
def cardCircle1 : Card := { id := "card-1", shape := .circle, number := 1 }

/-- The circle-2 card of the deck. -/
def cardCircle2 : Card := { id := "card-2", shape := .circle, number := 2 }

/-- The circle-8 card of the deck. -/
def cardCircle8 : Card := { id := "card-7", shape := .circle, number := 8 }

/-- The triangle-2 card of the deck. -/
def cardTriangle2 : Card := { id := "card-14", shape := .triangle, number := 2 }

/-- Scenario A (identity shuffle, players a and b, default rules): the
freshly dealt state.  Player a holds circle 1-7, player b circle 8-14,
the start card is triangle 1. -/
def scenA0 : GameState :=
  createInitialGameState idShuffle "ROOM" [("a", "A"), ("b", "B")] none 0

/-- Scenario A after a plays circle 1 (Hold On: a plays again). -/
def scenA1 : GameState :=
  match playCard scenA0 cardCircle1 none "a" 0 with
  | .ok t => t
  | .error _ => default

/-- Scenario A after a then plays circle 2 (Pick Two: chain 1 against b). -/
def scenA2 : GameState :=
  match playCard scenA1 cardCircle2 none "a" 0 with
  | .ok t => t
  | .error _ => default

/-- Scenario A after b answers the pick chain with circle 8. -/
def scenA3 : GameState :=
  match playCard scenA2 cardCircle8 none "b" 0 with
  | .ok t => t
  | .error _ => default

/-- Scenario B: like scenario A but the shuffle hands b the triangle 2
(positions 6 and 13 swapped). -/
def scenB0 : GameState :=
  createInitialGameState (swapAt 6 13) "ROOM" [("a", "A"), ("b", "B")] none 0

/-- Scenario B after a plays circle 1. -/
def scenB1 : GameState :=
  match playCard scenB0 cardCircle1 none "a" 0 with
  | .ok t => t
  | .error _ => default

/-- Scenario B after a then plays circle 2 (first Pick Two). -/
def scenB2 : GameState :=
  match playCard scenB1 cardCircle2 none "a" 0 with
  | .ok t => t
  | .error _ => default

/-- Scenario B after b answers with triangle 2 (second consecutive
Pick Two, no draw in between). -/
def scenB3 : GameState :=
  match playCard scenB2 cardTriangle2 none "b" 0 with
  | .ok t => t
  | .error _ => default

/-- Scenario B: a's obligated draw after the two Pick Two plays. -/
def scenB4 : GameState × List Card :=
  match drawHandler idShuffle scenB3 "a" 0 with
  | .ok r => r
  | .error _ => (default, [])

/-- The id of the player whose turn it is (used to model "the current
player sends the draw request"). -/
def currentId (s : GameState) : String :=
  ((s.players.get? s.currentPlayerIndex).map (·.id)).getD ""

/-- One draw request by the current player; `none` if the handler errors. -/
def drainStep (shuffle : List Card → List Card) (now : Nat)
    (s : GameState) : Option GameState :=
  match drawHandler shuffle s (currentId s) now with
  | .ok r => some r.1
  | .error _ => none

/-- `k` successive draw requests, each by the then-current player. -/
def drain (shuffle : List Card → List Card) (now : Nat) :
    Nat → GameState → Option GameState
  | 0, s => some s
  | k + 1, s => (drainStep shuffle now s).bind (drain shuffle now k)

/-- The general-market draining invariant: the queue `q` is pending, its
head is the current player, all queued ids are seated non-initiators, and
the initiator `ipid` is recorded. -/
def gmQueueInv (ids : List String) (ipid : String) (q : List String)
    (t : GameState) : Prop :=
  t.players.map (·.id) = ids ∧
  t.effectActive = some .general_market ∧
  t.marketDue = some q ∧
  t.generalMarketInitiator = some ipid ∧
  q.Nodup ∧
  (∀ x ∈ q, x ∈ ids ∧ x ≠ ipid) ∧
  (∀ h rest, q = h :: rest →
    jsFindIndex (fun y => y == h) ids = some t.currentPlayerIndex)

/-- The advertised deck count always equals the hidden market size. -/
def deckCountInv (s : GameState) : Prop := s.deckCount = s.marketPile.length

/-- The circle-3 card of the deck. -/
def cardCircle3 : Card := { id := "card-3", shape := .circle, number := 3 }

/-- A mid-game state where player a holds a single matching circle 3:
playing it empties the hand and must declare a win. -/
def winScenState : GameState :=
  { roomCode := "ROOM"
    players := [{ id := "a", name := "A", cardCount := 1, isHost := true, isReady := false },
                { id := "b", name := "B", cardCount := 2, isHost := false, isReady := false }]
    currentCard := some cardCircle1
    currentPlayerIndex := 0
    direction := 1
    selectedShape := none
    lastAction := ""
    gameStarted := true
    winner := none
    deckCount := 1
    pickTwoChain := 0
    pickThreeChain := 0
    effectActive := none
    generalMarketInitiator := none
    marketDue := none
    marketPile := [{ id := "card-20", shape := .triangle, number := 10 }]
    discardPile := [cardCircle1]
    playerHands := [("a", [cardCircle3]),
                    ("b", [{ id := "card-8", shape := .circle, number := 10 },
                           { id := "card-9", shape := .circle, number := 11 }])]
    sessionWins := fun _ => 0
    pickEffectInitiator := none
    rules := defaultRules
    rulesLocked := true
    totalTurns := 4
    turnStartTime := 0 }

/-- The state after a plays the winning circle 3 in `winScenState`. -/
def winScenResult : GameState :=
  match playCard winScenState cardCircle3 none "a" 0 with
  | .ok t => t
  | .error _ => default

/-- A reachable-shape state with a general market pending against b (2
players, initiator a, queue [b]), where b holds a single matching rank-1
card. -/
def gmHoldOnState : GameState :=
  { roomCode := "ROOM"
    players := [{ id := "a", name := "A", cardCount := 5, isHost := true, isReady := false },
                { id := "b", name := "B", cardCount := 1, isHost := false, isReady := false }]
    currentCard := some { id := "card-12", shape := .circle, number := 14 }
    currentPlayerIndex := 1
    direction := 1
    selectedShape := none
    lastAction := ""
    gameStarted := true
    winner := none
    deckCount := 2
    pickTwoChain := 0
    pickThreeChain := 0
    effectActive := some .general_market
    generalMarketInitiator := some "a"
    marketDue := some ["b"]
    marketPile := [{ id := "card-20", shape := .triangle, number := 10 },
                   { id := "card-21", shape := .triangle, number := 11 }]
    discardPile := [{ id := "card-12", shape := .circle, number := 14 }]
    playerHands := [("a", [{ id := "card-8", shape := .circle, number := 10 },
                           { id := "card-9", shape := .circle, number := 11 },
                           { id := "card-10", shape := .circle, number := 12 },
                           { id := "card-11", shape := .circle, number := 13 },
                           { id := "card-2", shape := .circle, number := 2 }]),
                    ("b", [cardCircle1])]
    sessionWins := fun _ => 0
    pickEffectInitiator := none
    rules := defaultRules
    rulesLocked := true
    totalTurns := 6
    turnStartTime := 0 }

/-- The state after b plays the rank-1 card in `gmHoldOnState`. -/
def gmHoldOnResult : GameState :=
  match playCard gmHoldOnState cardCircle1 none "b" 0 with
  | .ok t => t
  | .error _ => default

/-- The triangle-14 card of the deck. -/
def cardTriangle14 : Card := { id := "card-24", shape := .triangle, number := 14 }

/-- Scenario D: like scenario A but the shuffle hands a the triangle 14
(positions 0 and 23 swapped); the start card is triangle 1. -/
def scenD0 : GameState :=
  createInitialGameState (swapAt 0 23) "ROOM" [("a", "A"), ("b", "B")] none 0

/-- Scenario D after a plays the triangle 14 (General Market). -/
def scenD1 : GameState :=
  match playCard scenD0 cardTriangle14 none "a" 0 with
  | .ok t => t
  | .error _ => default

/-- A 4-player state with a general market pending (initiator a, queue
[b, c, d]) where the current victim b holds a matching rank-8 card. -/
def gmSuspState : GameState :=
  { roomCode := "ROOM"
    players := [{ id := "a", name := "A", cardCount := 4, isHost := true, isReady := false },
                { id := "b", name := "B", cardCount := 2, isHost := false, isReady := false },
                { id := "c", name := "C", cardCount := 4, isHost := false, isReady := false },
                { id := "d", name := "D", cardCount := 4, isHost := false, isReady := false }]
    currentCard := some { id := "card-12", shape := .circle, number := 14 }
    currentPlayerIndex := 1
    direction := 1
    selectedShape := none
    lastAction := ""
    gameStarted := true
    winner := none
    deckCount := 2
    pickTwoChain := 0
    pickThreeChain := 0
    effectActive := some .general_market
    generalMarketInitiator := some "a"
    marketDue := some ["b", "c", "d"]
    marketPile := [{ id := "card-20", shape := .triangle, number := 10 },
                   { id := "card-21", shape := .triangle, number := 11 }]
    discardPile := [{ id := "card-12", shape := .circle, number := 14 }]
    playerHands := [("a", [{ id := "card-8", shape := .circle, number := 10 },
                           { id := "card-9", shape := .circle, number := 11 },
                           { id := "card-10", shape := .circle, number := 12 },
                           { id := "card-11", shape := .circle, number := 13 }]),
                    ("b", [cardCircle8, cardCircle3]),
                    ("c", []), ("d", [])]
    sessionWins := fun _ => 0
    pickEffectInitiator := none
    rules := defaultRules
    rulesLocked := true
    totalTurns := 6
    turnStartTime := 0 }

/-- The state after b plays the rank-8 card in `gmSuspState`. -/
def gmSuspResult : GameState :=
  match playCard gmSuspState cardCircle8 none "b" 0 with
  | .ok t => t
  | .error _ => default

/-- A plain 3-player state where the current player holds a matching
rank-8 card and no effect is active. -/
def plainSuspState : GameState :=
  { roomCode := "ROOM"
    players := [{ id := "a", name := "A", cardCount := 2, isHost := true, isReady := false },
                { id := "b", name := "B", cardCount := 3, isHost := false, isReady := false },
                { id := "c", name := "C", cardCount := 3, isHost := false, isReady := false }]
    currentCard := some cardCircle1
    currentPlayerIndex := 0
    direction := 1
    selectedShape := none
    lastAction := ""
    gameStarted := true
    winner := none
    deckCount := 1
    pickTwoChain := 0
    pickThreeChain := 0
    effectActive := none
    generalMarketInitiator := none
    marketDue := none
    marketPile := [{ id := "card-20", shape := .triangle, number := 10 }]
    discardPile := [cardCircle1]
    playerHands := [("a", [cardCircle8, cardCircle3]),
                    ("b", []), ("c", [])]
    sessionWins := fun _ => 0
    pickEffectInitiator := none
    rules := defaultRules
    rulesLocked := true
    totalTurns := 3
    turnStartTime := 0 }

/-- The state after a plays the rank-8 card in `plainSuspState`. -/
def plainSuspResult : GameState :=
  match playCard plainSuspState cardCircle8 none "a" 0 with
  | .ok t => t
  | .error _ => default

-- ==========================================
-- Theorems
-- ==========================================

theorem setCardCount_length (ps : List Player) (i n : Nat) :
    (setCardCount ps i n).length = ps.length := by
  induction ps generalizing i with
  | nil => rfl
  | cons p rest ih =>
    cases i with
    | zero => rfl
    | succ j => simpa [setCardCount] using ih j

theorem setCardCount_map_id (ps : List Player) (i n : Nat) :
    (setCardCount ps i n).map (·.id) = ps.map (·.id) := by
  induction ps generalizing i with
  | nil => rfl
  | cons p rest ih =>
    cases i with
    | zero => rfl
    | succ j => simpa [setCardCount] using ih j

/-- `applyCardEffect` only touches the turn index, the chains/effect, the
market-due queue and the log line; every other field is preserved. -/
theorem applyCardEffect_fields (s : GameState) (card : Card) (pid : String) :
    (applyCardEffect s card pid).playerHands = s.playerHands ∧
    (applyCardEffect s card pid).marketPile = s.marketPile ∧
    (applyCardEffect s card pid).deckCount = s.deckCount ∧
    (applyCardEffect s card pid).winner = s.winner ∧
    (applyCardEffect s card pid).sessionWins = s.sessionWins ∧
    (applyCardEffect s card pid).rules = s.rules ∧
    (applyCardEffect s card pid).rulesLocked = s.rulesLocked ∧
    (applyCardEffect s card pid).players = s.players := by
  unfold applyCardEffect
  dsimp only
  repeat' split
  all_goals exact ⟨rfl, rfl, rfl, rfl, rfl, rfl, rfl, rfl⟩

/-- A rank-1 card is Hold On: the turn index and the active effect are
untouched. -/
theorem applyCardEffect_holdOn (s : GameState) (card : Card) (pid : String)
    (h : card.number = 1) :
    (applyCardEffect s card pid).currentPlayerIndex = s.currentPlayerIndex ∧
    (applyCardEffect s card pid).effectActive = s.effectActive := by
  unfold applyCardEffect getCardEffect
  simp [h]

/-- A rank-8 card is Suspension: the turn index advances twice, the active
effect is untouched. -/
theorem applyCardEffect_suspension (s : GameState) (card : Card) (pid : String)
    (h : card.number = 8) :
    (applyCardEffect s card pid).currentPlayerIndex =
      getNextPlayerIndex
        (getNextPlayerIndex s.currentPlayerIndex s.players.length)
        s.players.length ∧
    (applyCardEffect s card pid).effectActive = s.effectActive := by
  unfold applyCardEffect getCardEffect
  simp [h]

/-- `gmInit` is the identity when no general-market effect is pending. -/
theorem gmInit_of_not_gm (u : GameState) (pid : String) (idx : Nat)
    (h : u.effectActive ≠ some .general_market) : gmInit u pid idx = u := by
  unfold gmInit
  simp [h]

/-- `gmInit` only touches the queue, the initiator, the effect, the turn
index and the log line. -/
theorem gmInit_fields (u : GameState) (pid : String) (idx : Nat) :
    (gmInit u pid idx).playerHands = u.playerHands ∧
    (gmInit u pid idx).marketPile = u.marketPile ∧
    (gmInit u pid idx).deckCount = u.deckCount ∧
    (gmInit u pid idx).winner = u.winner ∧
    (gmInit u pid idx).sessionWins = u.sessionWins ∧
    (gmInit u pid idx).rules = u.rules ∧
    (gmInit u pid idx).rulesLocked = u.rulesLocked ∧
    (gmInit u pid idx).players = u.players := by
  unfold gmInit
  dsimp only
  repeat' split
  all_goals exact ⟨rfl, rfl, rfl, rfl, rfl, rfl, rfl, rfl⟩

/-- `winCheck` only touches the winner, the session wins and the log
line. -/
theorem winCheck_fields (u : GameState) (idx : Nat) (card : Card)
    (pid : String) (rules : GameRules) :
    (winCheck u idx card pid rules).playerHands = u.playerHands ∧
    (winCheck u idx card pid rules).marketPile = u.marketPile ∧
    (winCheck u idx card pid rules).deckCount = u.deckCount ∧
    (winCheck u idx card pid rules).currentPlayerIndex = u.currentPlayerIndex ∧
    (winCheck u idx card pid rules).rulesLocked = u.rulesLocked ∧
    (winCheck u idx card pid rules).players = u.players ∧
    (winCheck u idx card pid rules).effectActive = u.effectActive ∧
    (winCheck u idx card pid rules).marketDue = u.marketDue ∧
    (winCheck u idx card pid rules).generalMarketInitiator =
      u.generalMarketInitiator := by
  unfold winCheck
  dsimp only
  repeat' split
  all_goals exact ⟨rfl, rfl, rfl, rfl, rfl, rfl, rfl, rfl, rfl⟩

/-- The winner branch of `winCheck`: an emptied hand that is not the
Hold-On carve-out sets the winner and bumps that player's session wins. -/
theorem winCheck_win (u : GameState) (idx : Nat) (card : Card) (pid : String)
    (rules : GameRules) (hrem : (getHand u.playerHands pid).length = 0)
    (hnot : ¬(card.number = 1 ∧ rules.winWithHoldOn = false)) :
    (winCheck u idx card pid rules).winner = some pid ∧
    (winCheck u idx card pid rules).sessionWins pid = u.sessionWins pid + 1 := by
  unfold winCheck
  simp [hrem, hnot]

/-- The Hold-On carve-out branch of `winCheck`: winner and session wins are
left untouched. -/
theorem winCheck_holdOn (u : GameState) (idx : Nat) (card : Card) (pid : String)
    (rules : GameRules) (hrem : (getHand u.playerHands pid).length = 0)
    (h1 : card.number = 1) (hw : rules.winWithHoldOn = false) :
    (winCheck u idx card pid rules).winner = u.winner ∧
    (winCheck u idx card pid rules).sessionWins = u.sessionWins := by
  unfold winCheck
  simp [hrem, h1, hw]

/-- A successful `passRestriction` changes at most the chains, the effect
and the initiator tracking; the effect is either kept or cleared. -/
theorem passRestriction_fields {s s2 : GameState} {card : Card} {pid : String}
    (h : passRestriction s card pid = some s2) :
    s2.playerHands = s.playerHands ∧
    s2.marketPile = s.marketPile ∧
    s2.deckCount = s.deckCount ∧
    s2.winner = s.winner ∧
    s2.sessionWins = s.sessionWins ∧
    s2.rules = s.rules ∧
    s2.rulesLocked = s.rulesLocked ∧
    s2.players = s.players ∧
    s2.currentPlayerIndex = s.currentPlayerIndex ∧
    s2.currentCard = s.currentCard ∧
    s2.selectedShape = s.selectedShape ∧
    s2.discardPile = s.discardPile ∧
    s2.totalTurns = s.totalTurns ∧
    (s2.effectActive = s.effectActive ∨ s2.effectActive = none) := by
  unfold passRestriction at h
  split at h
  · split at h
    · cases h
      exact ⟨rfl, rfl, rfl, rfl, rfl, rfl, rfl, rfl, rfl, rfl, rfl, rfl, rfl,
        Or.inr rfl⟩
    · split at h
      · cases h
        exact ⟨rfl, rfl, rfl, rfl, rfl, rfl, rfl, rfl, rfl, rfl, rfl, rfl, rfl,
          Or.inr rfl⟩
      · split at h
        · cases h
          exact ⟨rfl, rfl, rfl, rfl, rfl, rfl, rfl, rfl, rfl, rfl, rfl, rfl, rfl,
            Or.inl rfl⟩
        · cases h
  · cases h
    exact ⟨rfl, rfl, rfl, rfl, rfl, rfl, rfl, rfl, rfl, rfl, rfl, rfl, rfl,
      Or.inl rfl⟩

/-- Inversion of an accepted play: the winner slot was empty, the
restriction block produced an intermediate state, and the result is
`finishPlay` of it at the player's seat (which the turn check forces to be
`currentPlayerIndex`). -/
theorem playCard_ok_inv {s : GameState} {card : Card} {sh : Option Shape}
    {pid : String} {now : Nat} {s1 : GameState}
    (h : playCard s card sh pid now = .ok s1) :
    s.winner = none ∧
    ∃ s2, passRestriction s card pid = some s2 ∧
      s1 = finishPlay s2 s.currentPlayerIndex card sh pid now := by
  unfold playCard at h
  split at h
  · exact absurd h (by simp)
  · rename_i hw
    split at h
    · exact absurd h (by simp)
    · rename_i playerIndex hfind
      split at h
      · exact absurd h (by simp)
      · rename_i hidx
        split at h
        · exact absurd h (by simp)
        · split at h
          · exact absurd h (by simp)
          · rename_i s2 hrestr
            split at h
            · exact absurd h (by simp)
            · cases h
              refine ⟨by simpa using hw, s2, hrestr, ?_⟩
              have : playerIndex = s.currentPlayerIndex := by
                by_contra hne
                exact hidx hne
              rw [this]

theorem finishPlay_playerHands (s2 : GameState) (idx : Nat) (card : Card)
    (sh : Option Shape) (pid : String) (now : Nat) :
    (finishPlay s2 idx card sh pid now).playerHands =
      setHand s2.playerHands pid
        ((getHand s2.playerHands pid).filter (fun c => !(c.id == card.id))) := by
  unfold finishPlay
  dsimp only
  rw [(winCheck_fields _ _ _ _ _).1, (gmInit_fields _ _ _).1,
    (applyCardEffect_fields _ _ _).1]

theorem finishPlay_marketPile_deckCount (s2 : GameState) (idx : Nat)
    (card : Card) (sh : Option Shape) (pid : String) (now : Nat) :
    (finishPlay s2 idx card sh pid now).marketPile = s2.marketPile ∧
    (finishPlay s2 idx card sh pid now).deckCount = s2.deckCount := by
  unfold finishPlay
  dsimp only
  constructor
  · rw [(winCheck_fields _ _ _ _ _).2.1, (gmInit_fields _ _ _).2.1,
      (applyCardEffect_fields _ _ _).2.1]
  · rw [(winCheck_fields _ _ _ _ _).2.2.1, (gmInit_fields _ _ _).2.2.1,
      (applyCardEffect_fields _ _ _).2.2.1]

theorem finishPlay_rulesLocked (s2 : GameState) (idx : Nat) (card : Card)
    (sh : Option Shape) (pid : String) (now : Nat) :
    (finishPlay s2 idx card sh pid now).rulesLocked = true := by
  unfold finishPlay
  dsimp only
  rw [(winCheck_fields _ _ _ _ _).2.2.2.2.1, (gmInit_fields _ _ _).2.2.2.2.2.2.1,
    (applyCardEffect_fields _ _ _).2.2.2.2.2.2.1]

/-- The winner branch through `finishPlay`: if the play empties the hand
and is not the Hold-On carve-out, the winner is set and the session wins
bumped. -/
theorem finishPlay_win (s2 : GameState) (idx : Nat) (card : Card)
    (sh : Option Shape) (pid : String) (now : Nat)
    (hempty : (getHand (finishPlay s2 idx card sh pid now).playerHands pid).length = 0)
    (hnot : ¬(card.number = 1 ∧ s2.rules.winWithHoldOn = false)) :
    (finishPlay s2 idx card sh pid now).winner = some pid ∧
    (finishPlay s2 idx card sh pid now).sessionWins pid = s2.sessionWins pid + 1 := by
  rw [finishPlay_playerHands] at hempty
  unfold finishPlay
  dsimp only
  have hrem :
      (getHand (gmInit { applyCardEffect
        { s2 with
          playerHands := setHand s2.playerHands pid
            ((getHand s2.playerHands pid).filter (fun c => !(c.id == card.id)))
          players := setCardCount s2.players idx
            (getHand (setHand s2.playerHands pid
              ((getHand s2.playerHands pid).filter (fun c => !(c.id == card.id))))
              pid).length
          currentCard := some card
          discardPile := s2.discardPile ++ [card]
          selectedShape := sh
          rulesLocked := true
          totalTurns := s2.totalTurns + 1 } card pid
          with turnStartTime := now } pid idx).playerHands pid).length = 0 := by
    rw [(gmInit_fields _ _ _).1]
    show (getHand (applyCardEffect _ card pid).playerHands pid).length = 0
    rw [(applyCardEffect_fields _ _ _).1]
    exact hempty
  have h := winCheck_win _ idx card pid _ hrem hnot
  refine ⟨h.1, ?_⟩
  rw [h.2, (gmInit_fields _ _ _).2.2.2.2.1]
  show (applyCardEffect _ card pid).sessionWins pid + 1 = s2.sessionWins pid + 1
  rw [(applyCardEffect_fields _ _ _).2.2.2.2.1]

/-- The Hold-On carve-out through `finishPlay`: winner and session wins are
untouched; when no general-market effect is pending, the turn index also
stays. -/
theorem finishPlay_holdOn (s2 : GameState) (idx : Nat) (card : Card)
    (sh : Option Shape) (pid : String) (now : Nat)
    (hempty : (getHand (finishPlay s2 idx card sh pid now).playerHands pid).length = 0)
    (h1 : card.number = 1) (hw : s2.rules.winWithHoldOn = false) :
    (finishPlay s2 idx card sh pid now).winner = s2.winner ∧
    (s2.effectActive ≠ some .general_market →
      (finishPlay s2 idx card sh pid now).currentPlayerIndex =
        s2.currentPlayerIndex) := by
  rw [finishPlay_playerHands] at hempty
  unfold finishPlay
  dsimp only
  have hrem :
      (getHand (gmInit { applyCardEffect
        { s2 with
          playerHands := setHand s2.playerHands pid
            ((getHand s2.playerHands pid).filter (fun c => !(c.id == card.id)))
          players := setCardCount s2.players idx
            (getHand (setHand s2.playerHands pid
              ((getHand s2.playerHands pid).filter (fun c => !(c.id == card.id))))
              pid).length
          currentCard := some card
          discardPile := s2.discardPile ++ [card]
          selectedShape := sh
          rulesLocked := true
          totalTurns := s2.totalTurns + 1 } card pid
          with turnStartTime := now } pid idx).playerHands pid).length = 0 := by
    rw [(gmInit_fields _ _ _).1]
    show (getHand (applyCardEffect _ card pid).playerHands pid).length = 0
    rw [(applyCardEffect_fields _ _ _).1]
    exact hempty
  have h := winCheck_holdOn _ idx card pid _ hrem h1 hw
  have heff :
      (gmInit { applyCardEffect
        { s2 with
          playerHands := setHand s2.playerHands pid
            ((getHand s2.playerHands pid).filter (fun c => !(c.id == card.id)))
          players := setCardCount s2.players idx
            (getHand (setHand s2.playerHands pid
              ((getHand s2.playerHands pid).filter (fun c => !(c.id == card.id))))
              pid).length
          currentCard := some card
          discardPile := s2.discardPile ++ [card]
          selectedShape := sh
          rulesLocked := true
          totalTurns := s2.totalTurns + 1 } card pid
          with turnStartTime := now } pid idx).winner = s2.winner := by
    rw [(gmInit_fields _ _ _).2.2.2.1]
    show (applyCardEffect _ card pid).winner = s2.winner
    rw [(applyCardEffect_fields _ _ _).2.2.2.1]
  refine ⟨by rw [h.1, heff], ?_⟩
  intro hgm
  have heff2 := (applyCardEffect_holdOn
    { s2 with
      playerHands := setHand s2.playerHands pid
        ((getHand s2.playerHands pid).filter (fun c => !(c.id == card.id)))
      players := setCardCount s2.players idx
        (getHand (setHand s2.playerHands pid
          ((getHand s2.playerHands pid).filter (fun c => !(c.id == card.id))))
          pid).length
      currentCard := some card
      discardPile := s2.discardPile ++ [card]
      selectedShape := sh
      rulesLocked := true
      totalTurns := s2.totalTurns + 1 } card pid h1)
  rw [(winCheck_fields _ _ _ _ _).2.2.2.1]
  rw [gmInit_of_not_gm _ pid idx (by
    show (applyCardEffect _ card pid).effectActive ≠ some .general_market
    rw [heff2.2]
    exact hgm)]
  show (applyCardEffect _ card pid).currentPlayerIndex = s2.currentPlayerIndex
  rw [heff2.1]

/-- Suspension through `finishPlay`: with no general-market effect pending,
a rank-8 play advances the turn index by exactly two seats. -/
theorem finishPlay_suspension (s2 : GameState) (idx : Nat) (card : Card)
    (sh : Option Shape) (pid : String) (now : Nat)
    (h8 : card.number = 8) (hgm : s2.effectActive ≠ some .general_market) :
    (finishPlay s2 idx card sh pid now).currentPlayerIndex =
      getNextPlayerIndex
        (getNextPlayerIndex s2.currentPlayerIndex s2.players.length)
        s2.players.length := by
  unfold finishPlay
  dsimp only
  have heff2 := (applyCardEffect_suspension
    { s2 with
      playerHands := setHand s2.playerHands pid
        ((getHand s2.playerHands pid).filter (fun c => !(c.id == card.id)))
      players := setCardCount s2.players idx
        (getHand (setHand s2.playerHands pid
          ((getHand s2.playerHands pid).filter (fun c => !(c.id == card.id))))
          pid).length
      currentCard := some card
      discardPile := s2.discardPile ++ [card]
      selectedShape := sh
      rulesLocked := true
      totalTurns := s2.totalTurns + 1 } card pid h8)
  rw [(winCheck_fields _ _ _ _ _).2.2.2.1]
  rw [gmInit_of_not_gm _ pid idx (by
    show (applyCardEffect _ card pid).effectActive ≠ some .general_market
    rw [heff2.2]
    exact hgm)]
  show (applyCardEffect _ card pid).currentPlayerIndex = _
  rw [heff2.1]
  simp [setCardCount_length]

theorem jsFindIndex_map_id (x : String) (ps : List Player) :
    jsFindIndex (fun p => p.id == x) ps =
      jsFindIndex (fun y => y == x) (ps.map (·.id)) := by
  induction ps with
  | nil => rfl
  | cons p rest ih =>
    unfold jsFindIndex
    by_cases h : p.id == x
    · simp [h]
    · simp only [List.map_cons]
      rw [if_neg (by simpa using h), if_neg (by simpa using h), ih]

theorem jsFindIndex_some {p : α → Bool} {l : List α} {i : Nat}
    (h : jsFindIndex p l = some i) :
    ∃ a, l.get? i = some a ∧ p a = true := by
  induction l generalizing i with
  | nil => exact absurd h (by simp [jsFindIndex])
  | cons a rest ih =>
    unfold jsFindIndex at h
    by_cases hp : p a
    · rw [if_pos hp] at h
      cases h
      exact ⟨a, rfl, hp⟩
    · rw [if_neg hp] at h
      cases hj : jsFindIndex p rest with
      | none => rw [hj] at h; exact absurd h (by simp)
      | some j =>
        rw [hj] at h
        cases h
        obtain ⟨b, hb, hpb⟩ := ih hj
        exact ⟨b, by simpa using hb, hpb⟩

/-- On a duplicate-free list, the element at index `k` is found exactly at
index `k`. -/
theorem jsFindIndex_of_nodup_get {ids : List String} {k : Nat} {x : String}
    (hnd : ids.Nodup) (hget : ids.get? k = some x) :
    jsFindIndex (fun y => y == x) ids = some k := by
  induction ids generalizing k with
  | nil => simp at hget
  | cons a rest ih =>
    cases k with
    | zero =>
      cases hget
      simp [jsFindIndex]
    | succ j =>
      have hmem : x ∈ rest := by
        simp only [List.get?_cons_succ] at hget
        exact List.get?_mem hget
      have hax : ¬(a == x) = true := by
        simp only [beq_iff_eq]
        intro he
        subst he
        exact (List.nodup_cons.mp hnd).1 hmem
      unfold jsFindIndex
      rw [if_neg hax, ih (List.nodup_cons.mp hnd).2
        (by simpa using hget)]
      rfl

/-- A member is found somewhere, at its own position. -/
theorem jsFindIndex_of_mem {ids : List String} {x : String} (hmem : x ∈ ids) :
    ∃ i, jsFindIndex (fun y => y == x) ids = some i ∧ ids.get? i = some x := by
  induction ids with
  | nil => simp at hmem
  | cons a rest ih =>
    by_cases hax : (a == x) = true
    · refine ⟨0, ?_, ?_⟩
      · simp [jsFindIndex, hax]
      · simpa using beq_iff_eq.mp hax
    · have hmem2 : x ∈ rest := by
        rcases List.mem_cons.mp hmem with he | hm
        · exact absurd (beq_iff_eq.mpr he.symm) hax
        · exact hm
      obtain ⟨i, hi, hg⟩ := ih hmem2
      refine ⟨i + 1, ?_, by simpa using hg⟩
      unfold jsFindIndex
      rw [if_neg hax, hi]
      rfl

theorem setCardCount_filter_not_id (ps : List Player) (i k : Nat)
    (x : String) :
    ((setCardCount ps i k).filter (fun p => !(p.id == x))).map (·.id) =
      (ps.filter (fun p => !(p.id == x))).map (·.id) := by
  induction ps generalizing i with
  | nil => rfl
  | cons p rest ih =>
    cases i with
    | zero =>
      show ((({ p with cardCount := k } : Player) :: rest).filter
        (fun p => !(p.id == x))).map (·.id) = _
      by_cases hf : (p.id == x) = true
      · simp [List.filter_cons, hf]
      · simp [List.filter_cons, hf]
    | succ j =>
      show ((p :: setCardCount rest j k).filter
        (fun p => !(p.id == x))).map (·.id) = _
      by_cases hf : (p.id == x) = true
      · simp [List.filter_cons, hf, ih j]
      · simp [List.filter_cons, hf, ih j]

/-- Removing one occurrence from a duplicate-free list by filtering. -/
theorem filter_ne_length {ids : List String} {x : String}
    (hnd : ids.Nodup) (hmem : x ∈ ids) :
    (ids.filter (fun y => !(y == x))).length = ids.length - 1 := by
  induction ids with
  | nil => simp at hmem
  | cons a rest ih =>
    by_cases hax : (a == x) = true
    · have hx : a = x := beq_iff_eq.mp hax
      subst hx
      have hnin : a ∉ rest := (List.nodup_cons.mp hnd).1
      rw [List.filter_cons_of_neg (by simp)]
      rw [List.filter_eq_self.mpr (fun y hy => by
        simp only [Bool.not_eq_eq_eq_not, Bool.not_true, beq_eq_false_iff_ne]
        intro he
        exact hnin (he ▸ hy))]
      simp
    · have hmem2 : x ∈ rest := by
        rcases List.mem_cons.mp hmem with he | hm
        · exact absurd (beq_iff_eq.mpr he.symm) hax
        · exact hm
      have hlen : 1 ≤ rest.length := by
        cases rest with
        | nil => simp at hmem2
        | cons _ _ => simp
      have h2 := ih (List.nodup_cons.mp hnd).2 hmem2
      rw [List.filter_cons_of_pos (by simpa using hax)]
      simp only [List.length_cons, h2]
      omega

/-- Dropping the head of a duplicate-free queue by the handler's filter. -/
theorem filter_head_tail {q : List String} {x : String}
    (hnd : (x :: q).Nodup) :
    ((x :: q).filter (fun y => !(y == x))) = q := by
  rw [List.filter_cons_of_neg (by simp)]
  exact List.filter_eq_self.mpr (fun y hy => by
    simp only [Bool.not_eq_eq_eq_not, Bool.not_true, beq_eq_false_iff_ne]
    intro he
    exact (List.nodup_cons.mp hnd).1 (he ▸ hy))

/-- The draw loop only touches the piles, the log line and nothing of the
turn/effect control state. -/
theorem drawLoop_control (shuffle : List Card → List Card) (n : Nat)
    (s : GameState) (acc : List Card) :
    (drawLoop shuffle n s acc).1.players = s.players ∧
    (drawLoop shuffle n s acc).1.currentPlayerIndex = s.currentPlayerIndex ∧
    (drawLoop shuffle n s acc).1.effectActive = s.effectActive ∧
    (drawLoop shuffle n s acc).1.marketDue = s.marketDue ∧
    (drawLoop shuffle n s acc).1.generalMarketInitiator =
      s.generalMarketInitiator ∧
    (drawLoop shuffle n s acc).1.playerHands = s.playerHands ∧
    (drawLoop shuffle n s acc).1.direction = s.direction := by
  induction n generalizing s acc with
  | zero => exact ⟨rfl, rfl, rfl, rfl, rfl, rfl, rfl⟩
  | succ m ih =>
    unfold drawLoop
    dsimp only
    repeat' split
    all_goals first
      | exact ⟨rfl, rfl, rfl, rfl, rfl, rfl, rfl⟩
      | exact ⟨(ih _ _).1, (ih _ _).2.1, (ih _ _).2.2.1, (ih _ _).2.2.2.1,
          (ih _ _).2.2.2.2.1, (ih _ _).2.2.2.2.2.1, (ih _ _).2.2.2.2.2.2⟩

/-- An accepted play implies the player was found at the current seat. -/
theorem playCard_ok_find {s : GameState} {card : Card} {sh : Option Shape}
    {pid : String} {now : Nat} {s1 : GameState}
    (h : playCard s card sh pid now = .ok s1) :
    jsFindIndex (fun p => p.id == pid) s.players =
      some s.currentPlayerIndex := by
  unfold playCard at h
  split at h
  · exact absurd h (by simp)
  · split at h
    · exact absurd h (by simp)
    · rename_i playerIndex hfind
      split at h
      · exact absurd h (by simp)
      · rename_i hidx
        have heq : playerIndex = s.currentPlayerIndex := by
          by_contra hne
          exact hidx hne
        rw [← heq]
        exact hfind

/-- The draw handler's general-market resolution, run for the head of a
pending duplicate-free queue: the head is removed; if victims remain the
turn moves to the next queued id, otherwise control returns to the
initiator and the effect is cleared. -/
theorem drawResolve_gm {L1 : GameState} (ids : List String) (ipid h0 : String)
    (rest : List String) (cpi : Nat) (drawn : List Card) (now : Nat)
    (hIds : L1.players.map (·.id) = ids)
    (hEff : L1.effectActive = some .general_market)
    (hDue : L1.marketDue = some (h0 :: rest))
    (hGmi : L1.generalMarketInitiator = some ipid)
    (hqnd : (h0 :: rest).Nodup)
    (hmem : ipid ∈ ids)
    (hrmem : ∀ x ∈ rest, x ∈ ids) :
    (drawResolve L1 h0 cpi drawn now).players.map (·.id) = ids ∧
    (rest = [] → (drawResolve L1 h0 cpi drawn now).effectActive = none ∧
      (drawResolve L1 h0 cpi drawn now).generalMarketInitiator = none ∧
      jsFindIndex (fun y => y == ipid) ids =
        some (drawResolve L1 h0 cpi drawn now).currentPlayerIndex) ∧
    (∀ r0 rest2, rest = r0 :: rest2 →
      (drawResolve L1 h0 cpi drawn now).effectActive = some .general_market ∧
      (drawResolve L1 h0 cpi drawn now).marketDue = some rest ∧
      (drawResolve L1 h0 cpi drawn now).generalMarketInitiator = some ipid ∧
      jsFindIndex (fun y => y == r0) ids =
        some (drawResolve L1 h0 cpi drawn now).currentPlayerIndex) := by
  have hIds2 : ∀ k, (setCardCount L1.players cpi k).map (·.id) = ids := by
    intro k
    rw [setCardCount_map_id, hIds]
  cases rest with
  | nil =>
    obtain ⟨ii, hii, hgii⟩ := jsFindIndex_of_mem hmem
    unfold drawResolve
    dsimp only
    simp only [hEff, hDue, hGmi, Option.getD_some, filter_head_tail hqnd,
      eq_self_iff_true, if_true]
    rw [jsFindIndex_map_id ipid, hIds2]
    simp only [hii]
    refine ⟨hIds2 _, fun _ => ⟨?_, ?_, ?_⟩, fun r0 rest2 hcontra => by
      simp at hcontra⟩
    all_goals first | rfl | trivial | exact hii
  | cons r0 rest2 =>
    obtain ⟨jj, hjj, hgjj⟩ := jsFindIndex_of_mem (hrmem r0 (by simp))
    unfold drawResolve
    dsimp only
    simp only [hEff, hDue, hGmi, Option.getD_some, filter_head_tail hqnd,
      eq_self_iff_true, if_true]
    rw [jsFindIndex_map_id r0, hIds2]
    simp only [hjj]
    refine ⟨hIds2 _, fun hcontra => by simp at hcontra,
      fun r0x rest2x hx => ?_⟩
    cases hx
    simp only [if_neg (show ¬(some ActiveEffect.general_market = none) by simp)]
    refine ⟨?_, ?_, ?_, ?_⟩ <;> first | trivial | exact hjj

/-- One draw request by the current player under the general-market
invariant: the head victim draws, and either the queue advances or control
returns to the initiator. -/
theorem gmDrainStep (shuffle : List Card → List Card) (now : Nat)
    {ids : List String} {ipid h0 : String} {rest : List String} {t : GameState}
    (hnd : ids.Nodup) (hmem : ipid ∈ ids)
    (hinv : gmQueueInv ids ipid (h0 :: rest) t) :
    currentId t = h0 ∧
    ∃ t2, drainStep shuffle now t = some t2 ∧
      (rest = [] → t2.effectActive = none ∧ t2.generalMarketInitiator = none ∧
        jsFindIndex (fun y => y == ipid) ids = some t2.currentPlayerIndex) ∧
      (rest ≠ [] → gmQueueInv ids ipid rest t2) := by
  obtain ⟨hids, heff, hdue, hgmi, hqnd, hqmem, hhead⟩ := hinv
  have hcpi := hhead h0 rest rfl
  obtain ⟨a, hga, hpa⟩ := jsFindIndex_some hcpi
  have hmap : (t.players.get? t.currentPlayerIndex).map (·.id) = some h0 := by
    have hgm := List.get?_map (fun p : Player => p.id) t.players
      t.currentPlayerIndex
    rw [hids] at hgm
    rw [← hgm, hga, beq_iff_eq.mp hpa]
  have hcur : currentId t = h0 := by
    unfold currentId
    rw [hmap]
    rfl
  have hfindL : jsFindIndex (fun p => p.id == h0) t.players =
      some t.currentPlayerIndex := by
    rw [jsFindIndex_map_id, hids]
    exact hcpi
  have hstep : drainStep shuffle now t =
      some (drawResolve (drawLoop shuffle 1 t []).1 h0 t.currentPlayerIndex
        (drawLoop shuffle 1 t []).2 now) := by
    unfold drainStep drawHandler
    rw [hcur]
    simp only [hfindL]
    simp [heff]
  have hL := drawLoop_control shuffle 1 t []
  have hr := drawResolve_gm ids ipid h0 rest
    t.currentPlayerIndex (drawLoop shuffle 1 t []).2 now
    (by rw [hL.1, hids]) (by rw [hL.2.2.1, heff]) (by rw [hL.2.2.2.1, hdue])
    (by rw [hL.2.2.2.2.1, hgmi]) hqnd hmem
    (fun x hx => (hqmem x (by simp [hx])).1)
  refine ⟨hcur, drawResolve (drawLoop shuffle 1 t []).1 h0 t.currentPlayerIndex
    (drawLoop shuffle 1 t []).2 now, hstep, ?_, ?_⟩
  · intro hrest
    exact hr.2.1 hrest
  · intro hne
    cases hrest : rest with
    | nil => exact absurd hrest hne
    | cons r0 rest2 =>
      subst hrest
      have h3 := hr.2.2 r0 rest2 rfl
      refine ⟨hr.1, h3.1, h3.2.1, h3.2.2.1, ?_, ?_, ?_⟩
      · exact (List.nodup_cons.mp hqnd).2
      · intro x hx
        exact hqmem x (by simp [hx])
      · intro hh hrest2 heq
        cases heq
        exact h3.2.2.2

/-- Draining a pending general-market queue: after exactly `|q|` draws
(each by the then-current player, never the initiator) the effect clears
and the turn returns to the initiator's seat. -/
theorem gmDrain (shuffle : List Card → List Card) (now : Nat)
    {ids : List String} {ipid : String} (hnd : ids.Nodup) (hmem : ipid ∈ ids) :
    ∀ q t, q ≠ [] → gmQueueInv ids ipid q t →
      (∃ tf, drain shuffle now q.length t = some tf ∧
        tf.effectActive = none ∧ tf.generalMarketInitiator = none ∧
        jsFindIndex (fun y => y == ipid) ids = some tf.currentPlayerIndex) ∧
      (∀ k, k < q.length → ∃ tk, drain shuffle now k t = some tk ∧
        currentId tk = q.getD k "" ∧ currentId tk ≠ ipid) := by
  intro q
  induction q with
  | nil => intro t hne _; exact absurd rfl hne
  | cons h0 rest ih =>
    intro t _ hinv
    have hne0 : h0 ≠ ipid := (hinv.2.2.2.2.2.1 h0 (by simp)).2
    obtain ⟨hcur, t2, hstep, hfin, hcont⟩ := gmDrainStep shuffle now hnd hmem hinv
    cases rest with
    | nil =>
      refine ⟨⟨t2, ?_, (hfin rfl).1, (hfin rfl).2.1, (hfin rfl).2.2⟩, ?_⟩
      · show (drainStep shuffle now t).bind (drain shuffle now 0) = some t2
        rw [hstep]
        rfl
      · intro k hk
        have hk0 : k = 0 := by simpa using hk
        subst hk0
        exact ⟨t, rfl, by simpa using hcur, by rw [hcur]; exact hne0⟩
    | cons r0 rest2 =>
      have hinv2 := hcont (by simp)
      obtain ⟨⟨tf, hdr, hf1, hf2, hf3⟩, hall⟩ := ih t2 (by simp) hinv2
      constructor
      · refine ⟨tf, ?_, hf1, hf2, hf3⟩
        show (drainStep shuffle now t).bind
          (drain shuffle now (r0 :: rest2).length) = some tf
        rw [hstep]
        exact hdr
      · intro k hk
        cases k with
        | zero => exact ⟨t, rfl, by simpa using hcur, by rw [hcur]; exact hne0⟩
        | succ j =>
          obtain ⟨tk, hdk, hck, hcne⟩ := hall j (by simpa using hk)
          refine ⟨tk, ?_, by simpa using hck, hcne⟩
          show (drainStep shuffle now t).bind (drain shuffle now j) = some tk
          rw [hstep]
          exact hdk

/-- A rank-14 card always activates the general-market effect. -/
theorem applyCardEffect_gm (s : GameState) (card : Card) (pid : String)
    (h14 : card.number = 14) :
    (applyCardEffect s card pid).effectActive = some .general_market := by
  unfold applyCardEffect getCardEffect
  rw [h14]
  repeat' split
  all_goals first | rfl | simp_all

/-- A rank-14 play through `finishPlay` with at least one opponent: the
queue holds the other ids in seat order, the initiator is recorded, the
effect is active and the turn is at the first victim's seat. -/
theorem finishPlay_gm (s2 : GameState) (idx : Nat) (card : Card)
    (sh : Option Shape) (pid : String) (now : Nat) (h14 : card.number = 14)
    (first : String) (restq : List String)
    (hq : (s2.players.filter (fun p => !(p.id == pid))).map (·.id) =
      first :: restq)
    (j : Nat)
    (hfirst : jsFindIndex (fun y => y == first) (s2.players.map (·.id)) =
      some j) :
    (finishPlay s2 idx card sh pid now).players.map (·.id) =
      s2.players.map (·.id) ∧
    (finishPlay s2 idx card sh pid now).effectActive = some .general_market ∧
    (finishPlay s2 idx card sh pid now).marketDue = some (first :: restq) ∧
    (finishPlay s2 idx card sh pid now).generalMarketInitiator = some pid ∧
    (finishPlay s2 idx card sh pid now).currentPlayerIndex = j := by
  unfold finishPlay
  obtain ⟨wPH, wMP, wDC, wCPI, wRL, wPl, wEff, wDue, wGmi⟩ :=
    winCheck_fields (gmInit { applyCardEffect
      { s2 with
        playerHands := setHand s2.playerHands pid
          ((getHand s2.playerHands pid).filter (fun c => !(c.id == card.id)))
        players := setCardCount s2.players idx
          (getHand (setHand s2.playerHands pid
            ((getHand s2.playerHands pid).filter (fun c => !(c.id == card.id))))
            pid).length
        currentCard := some card
        discardPile := s2.discardPile ++ [card]
        selectedShape := sh
        rulesLocked := true
        totalTurns := s2.totalTurns + 1 } card pid
        with turnStartTime := now } pid idx) idx card pid
      { s2 with
        playerHands := setHand s2.playerHands pid
          ((getHand s2.playerHands pid).filter (fun c => !(c.id == card.id)))
        players := setCardCount s2.players idx
          (getHand (setHand s2.playerHands pid
            ((getHand s2.playerHands pid).filter (fun c => !(c.id == card.id))))
            pid).length
        currentCard := some card
        discardPile := s2.discardPile ++ [card]
        selectedShape := sh
        rulesLocked := true
        totalTurns := s2.totalTurns + 1 }.rules
  rw [wPl, wEff, wDue, wGmi, wCPI]
  unfold gmInit
  rw [if_pos (show ({ applyCardEffect
      { s2 with
        playerHands := setHand s2.playerHands pid
          ((getHand s2.playerHands pid).filter (fun c => !(c.id == card.id)))
        players := setCardCount s2.players idx
          (getHand (setHand s2.playerHands pid
            ((getHand s2.playerHands pid).filter (fun c => !(c.id == card.id))))
            pid).length
        currentCard := some card
        discardPile := s2.discardPile ++ [card]
        selectedShape := sh
        rulesLocked := true
        totalTurns := s2.totalTurns + 1 } card pid
      with turnStartTime := now } : GameState).effectActive =
        some .general_market
    from applyCardEffect_gm _ card pid h14)]
  dsimp only
  have hopp : (({ applyCardEffect
      { s2 with
        playerHands := setHand s2.playerHands pid
          ((getHand s2.playerHands pid).filter (fun c => !(c.id == card.id)))
        players := setCardCount s2.players idx
          (getHand (setHand s2.playerHands pid
            ((getHand s2.playerHands pid).filter (fun c => !(c.id == card.id))))
            pid).length
        currentCard := some card
        discardPile := s2.discardPile ++ [card]
        selectedShape := sh
        rulesLocked := true
        totalTurns := s2.totalTurns + 1 } card pid
      with turnStartTime := now } : GameState).players.filter
        (fun p => !(p.id == pid))).map (·.id) = first :: restq := by
    show ((applyCardEffect _ card pid).players.filter
      (fun p => !(p.id == pid))).map (·.id) = first :: restq
    rw [(applyCardEffect_fields _ _ _).2.2.2.2.2.2.2]
    show (((setCardCount s2.players idx _ : List Player)).filter
      (fun p => !(p.id == pid))).map (·.id) = first :: restq
    rw [setCardCount_filter_not_id]
    exact hq
  simp only [hopp]
  have hfind2 : jsFindIndex (fun p => p.id == first)
      ({ applyCardEffect
        { s2 with
          playerHands := setHand s2.playerHands pid
            ((getHand s2.playerHands pid).filter (fun c => !(c.id == card.id)))
          players := setCardCount s2.players idx
            (getHand (setHand s2.playerHands pid
              ((getHand s2.playerHands pid).filter (fun c => !(c.id == card.id))))
              pid).length
          currentCard := some card
          discardPile := s2.discardPile ++ [card]
          selectedShape := sh
          rulesLocked := true
          totalTurns := s2.totalTurns + 1 } card pid
        with turnStartTime := now } : GameState).players = some j := by
    rw [jsFindIndex_map_id]
    show jsFindIndex (fun y => y == first)
      ((applyCardEffect _ card pid).players.map (·.id)) = some j
    rw [(applyCardEffect_fields _ _ _).2.2.2.2.2.2.2]
    show jsFindIndex (fun y => y == first)
      ((setCardCount s2.players idx _ : List Player).map (·.id)) = some j
    rw [setCardCount_map_id]
    exact hfirst
  simp only [hfind2]
  refine ⟨?_, ?_, ?_, ?_, ?_⟩
  · show ((applyCardEffect _ card pid).players).map (·.id) =
      s2.players.map (·.id)
    rw [(applyCardEffect_fields _ _ _).2.2.2.2.2.2.2]
    show ((setCardCount s2.players idx _ : List Player)).map (·.id) =
      s2.players.map (·.id)
    rw [setCardCount_map_id]
  all_goals first | trivial | rfl | exact applyCardEffect_gm _ card pid h14

theorem filter_map_not_id (ps : List Player) (x : String) :
    (ps.filter (fun p => !(p.id == x))).map (·.id) =
      (ps.map (·.id)).filter (fun y => !(y == x)) := by
  induction ps with
  | nil => rfl
  | cons p rest ih =>
    by_cases h : (p.id == x) = true <;> simp [List.filter_cons, h, ih]

/-- `applyStartCardEffect` never touches the piles or the deck count. -/
theorem applyStartCardEffect_fields (s : GameState) :
    (applyStartCardEffect s).deckCount = s.deckCount ∧
    (applyStartCardEffect s).marketPile = s.marketPile := by
  unfold applyStartCardEffect
  repeat' split
  all_goals exact ⟨rfl, rfl⟩

/-- `drawResolve` re-establishes the deck-count invariant outright. -/
theorem drawResolve_deckCountInv (s : GameState) (pid : String) (idx : Nat)
    (drawn : List Card) (now : Nat) :
    deckCountInv (drawResolve s pid idx drawn now) := by
  unfold deckCountInv drawResolve
  dsimp only
  repeat' split
  all_goals rfl

/-- Inversion of a successful draw: the saved state is `drawResolve` of the
loop's output. -/
theorem drawHandler_ok_inv {shuffle : List Card → List Card} {s : GameState}
    {pid : String} {now : Nat} {r : GameState × List Card}
    (h : drawHandler shuffle s pid now = .ok r) :
    ∃ playerIndex drawCount,
      jsFindIndex (fun p => p.id == pid) s.players = some playerIndex ∧
      playerIndex = s.currentPlayerIndex ∧
      r.1 = drawResolve (drawLoop shuffle drawCount s []).1 pid playerIndex
        (drawLoop shuffle drawCount s []).2 now ∧
      r.2 = (drawLoop shuffle drawCount s []).2 := by
  unfold drawHandler at h
  split at h
  · exact absurd h (by simp)
  · rename_i playerIndex hfind
    split at h
    · exact absurd h (by simp)
    · rename_i hidx
      cases h
      have heq : playerIndex = s.currentPlayerIndex := by
        by_contra hne
        exact hidx hne
      exact ⟨playerIndex, _, hfind, heq, rfl, rfl⟩

/-- The penalty-draw branch of auto-play re-establishes the deck-count
invariant. -/
theorem autoPlayPenaltyDraw_deckCountInv {shuffle : List Card → List Card}
    {s : GameState} {pid : String} {idx : Nat} {now : Nat} {n : Nat}
    {s1 : GameState}
    (h : autoPlayPenaltyDraw shuffle s pid idx now = .drew n s1) :
    deckCountInv s1 := by
  unfold autoPlayPenaltyDraw at h
  dsimp only at h
  cases h
  rfl

/-- The fallback-draw branch of auto-play re-establishes the deck-count
invariant. -/
theorem autoPlayFallbackDraw_deckCountInv {shuffle : List Card → List Card}
    {s : GameState} {pid : String} {idx : Nat} {now : Nat} {n : Nat}
    {s1 : GameState}
    (h : autoPlayFallbackDraw shuffle s pid idx now = .drew n s1) :
    deckCountInv s1 := by
  unfold autoPlayFallbackDraw at h
  dsimp only at h
  cases h
  rfl

/-- The play branch of auto-play never touches the market pile or the deck
count. -/
theorem autoPlayCard_market {s : GameState} {pid : String} {idx : Nat}
    {cardToPlay : Card} {cs : Shape} {now : Nat} {c : Card} {s1 : GameState}
    (h : autoPlayCard s pid idx cardToPlay cs now = .played c s1) :
    s1.deckCount = s.deckCount ∧ s1.marketPile = s.marketPile := by
  unfold autoPlayCard at h
  dsimp only at h
  repeat' split at h
  all_goals cases h
  all_goals constructor
  all_goals first
    | (show (applyCardEffect _ cardToPlay pid).deckCount = s.deckCount
       rw [(applyCardEffect_fields _ _ _).2.2.1])
    | (show (applyCardEffect _ cardToPlay pid).marketPile = s.marketPile
       rw [(applyCardEffect_fields _ _ _).2.1])

/-- C1: the claim says a play under an active pick chain is rejected unless
`rules.defendPick` and the card's rank matches the chain.  The code however
never assigns `pickEffectInitiator` anywhere, so the play-card handler's
"legacy game without initiator tracking" branch fires in every game ever
produced by this server, clearing the chain and accepting any card that
passes normal shape/rank matching.  Evidence at the failing input: in a
reachable state with `effectActive = pick_two`, `pickTwoChain = 1` and
`defendPick = false`, the obligated player b's circle 8 is accepted and
the pick effect is silently cleared. -/
theorem whot_C1_pick_chain_escape :
    scenA2.effectActive = some .pick_two ∧
    scenA2.pickTwoChain = 1 ∧
    scenA2.rules.defendPick = false ∧
    scenA2.pickEffectInitiator = none ∧
    cardCircle8.number = 8 ∧
    playCard scenA2 cardCircle8 none "b" 0 = .ok scenA3 ∧
    scenA3.effectActive = none := by
  refine ⟨rfl, rfl, rfl, rfl, rfl, rfl, rfl⟩

/-- C2: the conservation invariant `|market|+|discard|+Σ|hands| = 54` is
already broken by the freshly dealt state whenever the shuffle leaves a
wildcard at the start-card slot: `dealCards` skips wildcard start
candidates without returning them to any pile, so they vanish from play.
With 2 players and a shuffle that swaps a Whot (card-50) into position 12,
the dealt state totals 53 cards. -/
theorem whot_C2_deal_drops_wildcard :
    createDeck.length = 54 ∧
    (swapAt 12 49 createDeck).get? 12 =
      some { id := "card-50", shape := .circle, number := 20 } ∧
    totalCards
      (createInitialGameState (swapAt 12 49) "ROOM" [("a", "A"), ("b", "B")] none 0)
      = 53 := by
  refine ⟨rfl, rfl, rfl⟩

/-- C3: the claim says k consecutive undefended Pick-Two plays make the
obligated draw remove 2k cards.  Because `pickEffectInitiator` is never
set, the second Pick-Two play first takes the chain-clearing legacy branch
(chain reset to 0) and then re-increments it to 1, so the chain depth can
never exceed 1.  Evidence at k = 2: two consecutive accepted Pick-Two
plays (pickTwo enabled, no draw in between) leave `pickTwoChain = 1` and
the obligated draw removes 2 cards, not 4. -/
theorem whot_C3_chain_never_accumulates :
    playCard scenB1 cardCircle2 none "a" 0 = .ok scenB2 ∧
    scenB2.effectActive = some .pick_two ∧
    scenB2.pickTwoChain = 1 ∧
    cardTriangle2.number = 2 ∧
    scenB2.rules.pickTwo = true ∧
    playCard scenB2 cardTriangle2 none "b" 0 = .ok scenB3 ∧
    scenB3.effectActive = some .pick_two ∧
    scenB3.pickTwoChain = 1 ∧
    drawHandler idShuffle scenB3 "a" 0 = .ok scenB4 ∧
    scenB4.2.length = 2 := by
  refine ⟨rfl, rfl, rfl, rfl, rfl, rfl, rfl, rfl, rfl, rfl⟩

/-- C4 counterexample: the claim says no outbound state reveals any part of
the discard pile beyond its top card.  The redaction spread only empties
`playerHands` and `marketPile`; in a reachable state whose discard pile
holds 3 cards, the get-state response carries all 3. -/
theorem whot_C4_discard_not_redacted :
    getStateHandler (some scenA2) = .ok (publicState scenA2) ∧
    (publicState scenA2).discardPile.length = 3 ∧
    ¬ (publicState scenA2).discardPile.length ≤ 1 := by
  refine ⟨rfl, rfl, by decide⟩

/-- C4 (amended): every outbound game state - the get-state response and
the `{...state, playerHands: {}, marketPile: []}` value broadcast by every
handler - has an empty `playerHands` map and an empty `marketPile`, but
carries the discard pile in full. -/
theorem whot_C4_redaction (s : GameState) :
    (publicState s).playerHands = [] ∧
    (publicState s).marketPile = [] ∧
    (publicState s).discardPile = s.discardPile ∧
    getStateHandler (some s) = .ok (publicState s) :=
  ⟨rfl, rfl, rfl, rfl⟩

/-- C5 counterexample: the claim says that emptying the hand with a rank-1
card while `winWithHoldOn` is false leaves the turn with that player.  If a
general-market effect is active when the card is played, the handler's
queue-initialization block rebuilds `marketDue` and hands the turn to the
first queued victim: b (seat 1) plays the rank-1 card, no winner is set,
and the turn moves to seat 0. -/
theorem whot_C5_gm_moves_turn :
    playCard gmHoldOnState cardCircle1 none "b" 0 = .ok gmHoldOnResult ∧
    cardCircle1.number = 1 ∧
    gmHoldOnState.rules.winWithHoldOn = false ∧
    (getHand gmHoldOnResult.playerHands "b").length = 0 ∧
    gmHoldOnResult.winner = none ∧
    gmHoldOnState.currentPlayerIndex = 1 ∧
    gmHoldOnResult.currentPlayerIndex = 0 := by
  refine ⟨rfl, rfl, rfl, rfl, rfl, rfl, rfl⟩

/-- C5 (amended): for every accepted play that empties the player's hand:
if the card has rank 1 and `winWithHoldOn` is false, no winner is set, and
the turn stays with that player provided no general-market effect was
active when the card was played; otherwise the winner is set to that
player and their session wins grow by exactly 1. -/
theorem whot_C5_win_carve_out (s : GameState) (card : Card) (sh : Option Shape)
    (pid : String) (now : Nat) (s1 : GameState)
    (hok : playCard s card sh pid now = .ok s1)
    (hempty : (getHand s1.playerHands pid).length = 0) :
    (card.number = 1 ∧ s.rules.winWithHoldOn = false →
      s1.winner = none ∧
      (s.effectActive ≠ some .general_market →
        s1.currentPlayerIndex = s.currentPlayerIndex)) ∧
    (¬(card.number = 1 ∧ s.rules.winWithHoldOn = false) →
      s1.winner = some pid ∧ s1.sessionWins pid = s.sessionWins pid + 1) := by
  obtain ⟨hwin, s2, hrestr, hs1⟩ := playCard_ok_inv hok
  obtain ⟨rPH, rMP, rDC, rW, rSW, rR, rRL, rPl, rCPI, rCC, rSS, rDP, rTT, rEff⟩ :=
    passRestriction_fields hrestr
  subst hs1
  constructor
  · rintro ⟨h1, hw⟩
    have hw2 : s2.rules.winWithHoldOn = false := by rw [rR]; exact hw
    have h := finishPlay_holdOn s2 s.currentPlayerIndex card sh pid now hempty h1 hw2
    refine ⟨by rw [h.1, rW, hwin], ?_⟩
    intro hgm
    have hgm2 : s2.effectActive ≠ some .general_market := by
      rcases rEff with he | he
      · rw [he]; exact hgm
      · rw [he]; simp
    rw [h.2 hgm2, rCPI]
  · intro hnot
    have hnot2 : ¬(card.number = 1 ∧ s2.rules.winWithHoldOn = false) := by
      rw [rR]; exact hnot
    have h := finishPlay_win s2 s.currentPlayerIndex card sh pid now hempty hnot2
    exact ⟨h.1, by rw [h.2, rSW]⟩

/-- C5 witness: a concrete winning play through the amended theorem. -/
theorem whot_C5_witness :
    playCard winScenState cardCircle3 none "a" 0 = .ok winScenResult ∧
    (getHand winScenResult.playerHands "a").length = 0 ∧
    winScenResult.winner = some "a" ∧
    winScenResult.sessionWins "a" = winScenState.sessionWins "a" + 1 := by
  have h := whot_C5_win_carve_out winScenState cardCircle3 none "a" 0
    winScenResult rfl rfl
  have h2 := h.2 (by decide)
  exact ⟨rfl, rfl, h2.1, h2.2⟩

/-- C10: the advertised `deckCount` always equals the hidden market size:
it is established by `start` (the dealt state), re-established outright by
every draw and by both auto-play draw branches, and `play` (manual or
auto) touches neither the market pile nor the deck count. -/
theorem whot_C10_deckCount :
    (∀ (shuffle : List Card → List Card) (room : String)
        (ps : List (String × String)) (rules : Option PartialRules) (now : Nat),
      deckCountInv (createInitialGameState shuffle room ps rules now)) ∧
    (∀ (shuffle : List Card → List Card) (s : GameState) (pid : String)
        (now : Nat) (r : GameState × List Card),
      drawHandler shuffle s pid now = .ok r → deckCountInv r.1) ∧
    (∀ (s : GameState) (card : Card) (sh : Option Shape) (pid : String)
        (now : Nat) (s1 : GameState), playCard s card sh pid now = .ok s1 →
      s1.deckCount = s.deckCount ∧ s1.marketPile = s.marketPile) ∧
    (∀ (shuffle : List Card → List Card) (cs : Shape) (s : GameState)
        (pid : String) (now : Nat),
      (∀ n s1, autoPlay shuffle cs (some s) pid now = .drew n s1 →
        deckCountInv s1) ∧
      (∀ c s1, autoPlay shuffle cs (some s) pid now = .played c s1 →
        s1.deckCount = s.deckCount ∧ s1.marketPile = s.marketPile)) := by
  refine ⟨?_, ?_, ?_, ?_⟩
  · intro shuffle room ps rules now
    unfold deckCountInv createInitialGameState
    dsimp only
    rw [(applyStartCardEffect_fields _).1, (applyStartCardEffect_fields _).2]
  · intro shuffle s pid now r h
    obtain ⟨pi, dc, hfind, heq, hr1, hr2⟩ := drawHandler_ok_inv h
    rw [hr1]
    exact drawResolve_deckCountInv _ _ _ _ _
  · intro s card sh pid now s1 hok
    obtain ⟨hwin, s2, hrestr, hs1⟩ := playCard_ok_inv hok
    obtain ⟨rPH, rMP, rDC, rW, rSW, rR, rRL, rPl, rCPI, rCC, rSS, rDP, rTT, rEff⟩ :=
      passRestriction_fields hrestr
    subst hs1
    have h := finishPlay_marketPile_deckCount s2 s.currentPlayerIndex card sh pid now
    exact ⟨by rw [h.2, rDC], by rw [h.1, rMP]⟩
  · intro shuffle cs s pid now
    constructor
    · intro n s1 h
      unfold autoPlay at h
      dsimp only at h
      split at h
      · exact AutoPlayOutcome.noConfusion h
      · split at h
        · exact AutoPlayOutcome.noConfusion h
        · split at h
          · exact AutoPlayOutcome.noConfusion h
          · split at h
            · exact autoPlayPenaltyDraw_deckCountInv h
            · split at h
              · exact AutoPlayOutcome.noConfusion h
              · exact autoPlayFallbackDraw_deckCountInv h
    · intro c s1 h
      unfold autoPlay at h
      dsimp only at h
      split at h
      · exact AutoPlayOutcome.noConfusion h
      · split at h
        · exact AutoPlayOutcome.noConfusion h
        · split at h
          · exact AutoPlayOutcome.noConfusion h
          · split at h
            · exact absurd h (by
                unfold autoPlayPenaltyDraw
                dsimp only
                simp)
            · split at h
              · exact autoPlayCard_market h
              · exact absurd h (by
                  unfold autoPlayFallbackDraw
                  dsimp only
                  simp)

/-- C10 witness: the invariant theorem at concrete inputs — the fresh deal,
a concrete draw, and a concrete play. -/
theorem whot_C10_witness :
    deckCountInv scenA0 ∧
    drawHandler idShuffle scenB3 "a" 0 = .ok scenB4 ∧ deckCountInv scenB4.1 ∧
    playCard scenA0 cardCircle1 none "a" 0 = .ok scenA1 ∧
    scenA1.deckCount = scenA0.deckCount ∧
    scenA1.marketPile = scenA0.marketPile := by
  have h3 := whot_C10_deckCount.2.2.1 scenA0 cardCircle1 none "a" 0 scenA1 rfl
  exact ⟨whot_C10_deckCount.1 idShuffle "ROOM" [("a", "A"), ("b", "B")] none 0,
    rfl, whot_C10_deckCount.2.1 idShuffle scenB3 "a" 0 scenB4 rfl,
    rfl, h3.1, h3.2⟩

/-- C6: after a rank-14 play in an n-player game with distinct player ids,
`marketDue` holds the other n-1 ids in seat order; exactly n-1 individual
draws, one per queued victim in queue order and none by the initiator,
occur before `currentPlayerIndex` returns to the initiator's seat, at
which point `effectActive` and `generalMarketInitiator` are cleared. -/
theorem whot_C6_general_market_drain (shuffle : List Card → List Card)
    (s : GameState) (card : Card) (sh : Option Shape) (pid : String)
    (now : Nat) (s1 : GameState)
    (hnd : (s.players.map (·.id)).Nodup)
    (hok : playCard s card sh pid now = .ok s1)
    (h14 : card.number = 14)
    (hn : 2 ≤ s.players.length) :
    s1.marketDue =
      some ((s.players.filter (fun p => !(p.id == pid))).map (·.id)) ∧
    ((s.players.filter (fun p => !(p.id == pid))).map (·.id)).length =
      s.players.length - 1 ∧
    (∃ sf, drain shuffle now (s.players.length - 1) s1 = some sf ∧
      sf.currentPlayerIndex = s.currentPlayerIndex ∧
      sf.effectActive = none ∧ sf.generalMarketInitiator = none) ∧
    (∀ k, k < s.players.length - 1 →
      ∃ tk, drain shuffle now k s1 = some tk ∧
        currentId tk =
          ((s.players.filter (fun p => !(p.id == pid))).map (·.id)).getD k "" ∧
        currentId tk ≠ pid) := by
  have hfid : jsFindIndex (fun y => y == pid) (s.players.map (·.id)) =
      some s.currentPlayerIndex := by
    rw [← jsFindIndex_map_id]
    exact playCard_ok_find hok
  have hmem : pid ∈ s.players.map (·.id) := by
    obtain ⟨a, hga, hpa⟩ := jsFindIndex_some hfid
    rw [← beq_iff_eq.mp hpa]
    exact List.get?_mem hga
  have hqf : (s.players.filter (fun p => !(p.id == pid))).map (·.id) =
      (s.players.map (·.id)).filter (fun y => !(y == pid)) :=
    filter_map_not_id s.players pid
  have hqlen : ((s.players.filter (fun p => !(p.id == pid))).map (·.id)).length
      = s.players.length - 1 := by
    rw [hqf, filter_ne_length hnd hmem, List.length_map]
  have hqnd : ((s.players.filter (fun p => !(p.id == pid))).map (·.id)).Nodup := by
    rw [hqf]
    exact (List.filter_sublist _).nodup hnd
  have hqmem : ∀ x ∈ (s.players.filter (fun p => !(p.id == pid))).map (·.id),
      x ∈ s.players.map (·.id) ∧ x ≠ pid := by
    intro x hx
    rw [hqf] at hx
    obtain ⟨hx1, hx2⟩ := List.mem_filter.mp hx
    exact ⟨hx1, by simpa using hx2⟩
  have hqne : (s.players.filter (fun p => !(p.id == pid))).map (·.id) ≠ [] := by
    intro hq0
    rw [hq0] at hqlen
    simp at hqlen
    omega
  obtain ⟨hwin, s2, hrestr, hs1⟩ := playCard_ok_inv hok
  obtain ⟨rPH, rMP, rDC, rW, rSW, rR, rRL, rPl, rCPI, rCC, rSS, rDP, rTT, rEff⟩ :=
    passRestriction_fields hrestr
  cases hq : (s.players.filter (fun p => !(p.id == pid))).map (·.id) with
  | nil => exact absurd hq hqne
  | cons first restq =>
    have hfirstmem : first ∈ s.players.map (·.id) :=
      (hqmem first (by rw [hq]; simp)).1
    obtain ⟨j, hj, hgj⟩ := jsFindIndex_of_mem hfirstmem
    have hg := finishPlay_gm s2 s.currentPlayerIndex card sh pid now h14
      first restq (by rw [rPl]; exact hq) j (by rw [rPl]; exact hj)
    subst hs1
    have hinv : gmQueueInv (s.players.map (·.id)) pid (first :: restq)
        (finishPlay s2 s.currentPlayerIndex card sh pid now) := by
      refine ⟨by rw [hg.1, rPl], hg.2.1, hg.2.2.1, hg.2.2.2.1, ?_, ?_, ?_⟩
      · rw [← hq]; exact hqnd
      · intro x hx
        exact hqmem x (by rw [hq]; exact hx)
      · intro hh hrest heq
        cases heq
        rw [hg.2.2.2.2]
        exact hj
    have hdr := gmDrain shuffle now hnd hmem (first :: restq)
      (finishPlay s2 s.currentPlayerIndex card sh pid now) (by simp) hinv
    obtain ⟨⟨tf, hdf, hf1, hf2, hf3⟩, hall⟩ := hdr
    have hlen2 : (first :: restq).length = s.players.length - 1 := by
      rw [← hq]
      exact hqlen
    refine ⟨by rw [hg.2.2.1], hlen2, ⟨tf, ?_, ?_, hf1, hf2⟩, ?_⟩
    · rw [← hlen2]
      exact hdf
    · have := hf3.symm.trans hfid
      simpa using this
    · intro k hk
      obtain ⟨tk, hdk, hck, hcn⟩ := hall k (by rw [hlen2]; exact hk)
      exact ⟨tk, hdk, hck, hcn⟩

/-- C6 witness: the drain theorem at a concrete 2-player input. -/
theorem whot_C6_witness :
    (scenD0.players.map (·.id)).Nodup ∧
    playCard scenD0 cardTriangle14 none "a" 0 = .ok scenD1 ∧
    cardTriangle14.number = 14 ∧
    2 ≤ scenD0.players.length ∧
    (scenD1.marketDue =
      some ((scenD0.players.filter (fun p => !(p.id == "a"))).map (·.id)) ∧
    ((scenD0.players.filter (fun p => !(p.id == "a"))).map (·.id)).length =
      scenD0.players.length - 1 ∧
    (∃ sf, drain idShuffle 0 (scenD0.players.length - 1) scenD1 = some sf ∧
      sf.currentPlayerIndex = scenD0.currentPlayerIndex ∧
      sf.effectActive = none ∧ sf.generalMarketInitiator = none) ∧
    (∀ k, k < scenD0.players.length - 1 →
      ∃ tk, drain idShuffle 0 k scenD1 = some tk ∧
        currentId tk =
          ((scenD0.players.filter (fun p => !(p.id == "a"))).map (·.id)).getD
            k "" ∧
        currentId tk ≠ "a")) :=
  ⟨by decide, rfl, rfl, by decide,
    whot_C6_general_market_drain idShuffle scenD0 cardTriangle14 none "a" 0
      scenD1 (by decide) rfl rfl (by decide)⟩

/-- C7 counterexample: the claim says auto-play never returns an error to
its caller, including for an unknown room; the handler's first check
returns a 404 "Game not found" error precisely there. -/
theorem whot_C7_unknown_room_errors :
    autoPlay idShuffle .circle none "p" 0 = .err "Game not found" := rfl

/-- C8: while `rulesLocked` is false, `updateRules` merges the submitted
partial rules field-by-field and succeeds; every accepted play leaves
`rulesLocked` true (so the first one sets it); and `updateRules` on a
locked state fails with an error and, returning before any mutation,
leaves the rules unchanged. -/
theorem whot_C8_rules_lock :
    (∀ (s : GameState) (patch : PartialRules), s.rulesLocked = false →
      updateRules s patch = .ok { s with rules := mergeRules s.rules patch }) ∧
    (∀ (s : GameState) (patch : PartialRules), s.rulesLocked = true →
      updateRules s patch = .error "Rules are locked after first card is played") ∧
    (∀ (s : GameState) (card : Card) (sh : Option Shape) (pid : String)
        (now : Nat) (s1 : GameState),
      playCard s card sh pid now = .ok s1 → s1.rulesLocked = true) := by
  refine ⟨?_, ?_, ?_⟩
  · intro s patch h
    simp [updateRules, h]
  · intro s patch h
    simp [updateRules, h]
  · intro s card sh pid now s1 hok
    obtain ⟨hwin, s2, hrestr, hs1⟩ := playCard_ok_inv hok
    subst hs1
    exact finishPlay_rulesLocked s2 s.currentPlayerIndex card sh pid now

/-- C8 witness: the lock theorem at concrete inputs — an unlocked fresh
deal accepts a rules change, the first play locks the rules, and a locked
state rejects a change. -/
theorem whot_C8_witness :
    scenA0.rulesLocked = false ∧
    updateRules scenA0 { pickThree := some true } =
      .ok { scenA0 with rules := mergeRules scenA0.rules { pickThree := some true } } ∧
    playCard scenA0 cardCircle1 none "a" 0 = .ok scenA1 ∧
    scenA1.rulesLocked = true ∧
    updateRules scenA1 { pickThree := some true } =
      .error "Rules are locked after first card is played" := by
  refine ⟨rfl, whot_C8_rules_lock.1 scenA0 _ rfl, rfl,
    whot_C8_rules_lock.2.2 scenA0 cardCircle1 none "a" 0 scenA1 rfl,
    whot_C8_rules_lock.2.1 scenA1 _ ?_⟩
  exact whot_C8_rules_lock.2.2 scenA0 cardCircle1 none "a" 0 scenA1 rfl

/-- C9 counterexample: the claim says every accepted rank-8 play advances
the turn by exactly 2 mod the player count.  When a general-market effect
is active at play time, the queue-initialization block overrides the
suspension advance: in a 4-player game, seat 1 plays an 8 and the turn
lands on seat 0, not on seat (1+2) % 4 = 3. -/
theorem whot_C9_gm_overrides_suspension :
    playCard gmSuspState cardCircle8 none "b" 0 = .ok gmSuspResult ∧
    cardCircle8.number = 8 ∧
    gmSuspState.players.length = 4 ∧
    gmSuspState.currentPlayerIndex = 1 ∧
    gmSuspResult.currentPlayerIndex = 0 ∧
    (gmSuspState.currentPlayerIndex + 2) % gmSuspState.players.length = 3 := by
  refine ⟨rfl, rfl, rfl, rfl, rfl, rfl⟩

/-- C9 (amended): for every accepted play of a rank-8 card in a game with
at least 2 players and no general-market effect active at play time,
`currentPlayerIndex` advances by exactly 2 modulo the player count,
independent of the card's shape. -/
theorem whot_C9_suspension_two_seats (s : GameState) (card : Card)
    (sh : Option Shape) (pid : String) (now : Nat) (s1 : GameState)
    (hok : playCard s card sh pid now = .ok s1) (h8 : card.number = 8)
    (hn : 2 ≤ s.players.length)
    (hgm : s.effectActive ≠ some .general_market) :
    s1.currentPlayerIndex = (s.currentPlayerIndex + 2) % s.players.length := by
  obtain ⟨hwin, s2, hrestr, hs1⟩ := playCard_ok_inv hok
  obtain ⟨rPH, rMP, rDC, rW, rSW, rR, rRL, rPl, rCPI, rCC, rSS, rDP, rTT, rEff⟩ :=
    passRestriction_fields hrestr
  subst hs1
  have hgm2 : s2.effectActive ≠ some .general_market := by
    rcases rEff with he | he
    · rw [he]; exact hgm
    · rw [he]; simp
  rw [finishPlay_suspension s2 s.currentPlayerIndex card sh pid now h8 hgm2,
    rCPI, rPl]
  unfold getNextPlayerIndex
  rw [Nat.mod_add_mod]

/-- C9 witness: the amended theorem at a concrete 3-player input. -/
theorem whot_C9_witness :
    playCard plainSuspState cardCircle8 none "a" 0 = .ok plainSuspResult ∧
    cardCircle8.number = 8 ∧
    2 ≤ plainSuspState.players.length ∧
    plainSuspState.effectActive ≠ some .general_market ∧
    plainSuspResult.currentPlayerIndex =
      (plainSuspState.currentPlayerIndex + 2) % plainSuspState.players.length :=
  ⟨rfl, rfl, by decide, by decide,
    whot_C9_suspension_two_seats plainSuspState cardCircle8 none "a" 0
      plainSuspResult rfl rfl (by decide) (by decide)⟩

/-- C7 (amended): for an existing room, auto-play never returns an error:
a finished game or a moved turn yields a success "skipped" no-op, and every
other path returns a success draw/play response. -/
theorem whot_C7_existing_room_success (shuffle : List Card → List Card)
    (chooseShape : Shape) (s : GameState) (playerId : String) (now : Nat) :
    (autoPlay shuffle chooseShape (some s) playerId now).isSuccess = true := by
  simp only [autoPlay]
  split
  · rfl
  split
  · rfl
  split
  · rfl
  split
  · rfl
  split
  · rfl
  · rfl

end Whot
